import Mathlib

/-!
# Verification of the IP enrichment pipeline

A shallow embedding of the batch IP-enrichment pipeline of the
`ip_intelligence_platform` repository, together with proofs of the
specification claims about it.

The embedding follows `src/server/ip-enrichment.ts` (validation,
classification, per-row enrichment, batching/checkpointing, the main
pipeline loop), `src/server/db.ts` (the storage layer: `MemStorage`,
whose result-listing semantics agree with `DBStorage`), and the route
handlers (recent-results polling and the filtered-artifact download).

Modelling conventions:
* JavaScript objects built by property assignment are modelled as ordered
  association lists of `String × JVal` (`JObj`); assignment is `jset`
  (overwrite in place if the key exists, append otherwise), and
  `Object.values` is `jvalues`.
* Asynchronous effects are sequentialised: the pipeline is a fold over the
  parsed row list (the source pushes every row into `results` and
  processes them in order in the `end` handler).
* External services are parameters: the geolocation lookup is a function
  `String → Except String IPInfo` (the source's `getIPInfo` either
  returns data or throws), reverse DNS is `String → Option String`
  (the source's `getDomainFromIP` never throws).
* The durable store is a record holding the persisted `ResultRecord`s and
  a schedule `sched : Nat → Bool` giving the success/failure of each
  successive batch write (`storage.saveEnrichmentResults`), which models
  the fallible database.
* CSV artifacts are modelled at the level of lists of cell values; CSV
  quoting/escaping is not modelled (no claim depends on it).
-/

/-- A JavaScript value as it occurs in the rows and enrichment objects of
the pipeline: a string cell, a boolean, or `undefined`. -/
inductive JVal where
  | str (s : String)
  | bool (b : Bool)
  | undef
deriving DecidableEq, Repr

/-- A JavaScript object: an ordered association list of fields, in
insertion order (as JS objects enumerate string keys). -/
abbrev JObj : Type := List (String × JVal)

/-- Property read `o[k]`: `none` models an absent key (JS `undefined` via
missing property). -/
def jget (o : JObj) (k : String) : Option JVal :=
  (List.find? (fun p => p.1 == k) o).map (fun p => p.2)

/-- Property assignment `o[k] = v`: overwrites an existing key in place,
otherwise appends the key (JS object insertion-order semantics). -/
def jset (o : JObj) (k : String) (v : JVal) : JObj :=
  if (List.find? (fun p => p.1 == k) o).isSome then
    List.map (fun p => if p.1 == k then (k, v) else p) o
  else
    o ++ [(k, v)]

/-- A sequence of property assignments applied left to right. -/
def applySets (o : JObj) (kvs : List (String × JVal)) : JObj :=
  List.foldl (fun acc kv => jset acc kv.1 kv.2) o kvs

/-- `Object.values(o)`. -/
def jvalues (o : JObj) : List JVal := List.map (fun p => p.2) o

/-- The keys of an object, in order. -/
def jkeys (o : JObj) : List String := List.map (fun p => p.1) o

/-- JS truthiness of an optional string (the only values tested for
truthiness in the enrichment code are strings or missing values):
`undefined` and the empty string are falsy. -/
def jsTruthyStr : Option String → Bool
  | some s => !(s == "")
  | none => false

/-! ## `isValidIP` (AddressValidator), from `ip-enrichment.ts` lines 45-51 -/

/-- JavaScript `String.prototype.split` with a one-character separator,
on the character list of the string: `"".split('.')` is `[""]`, and a
trailing separator yields a trailing empty field. -/
def splitOnChar (sep : Char) : List Char → List (List Char)
  | [] => [[]]
  | c :: rest =>
    if c == sep then [] :: splitOnChar sep rest
    else
      match splitOnChar sep rest with
      | h :: t => (c :: h) :: t
      | [] => [[c]]

/-- Decimal value of a list of digit characters (most significant first). -/
def digitsVal (cs : List Char) : Nat :=
  List.foldl (fun a c => 10 * a + (c.toNat - 48)) 0 cs

/-- JavaScript `parseInt` restricted to what the validator feeds it:
parses the longest leading run of decimal digits; `none` models `NaN`.
(Sign/whitespace/radix handling is irrelevant here: the regex test has
already established the argument is all digits.) -/
def jsParseInt (cs : List Char) : Option Nat :=
  let ds := List.takeWhile Char.isDigit cs
  if ds.isEmpty then none else some (digitsVal ds)

/-- The test of the regex `^(\d{1,3})\.(\d{1,3})\.(\d{1,3})\.(\d{1,3})$`:
the string consists of exactly four groups of one to three ASCII digits
separated by single dots. -/
def ipv4RegexTest (s : String) : Bool :=
  let parts := splitOnChar '.' s.data
  parts.length == 4 &&
    parts.all (fun p => decide (1 ≤ p.length) && decide (p.length ≤ 3) &&
      List.all p Char.isDigit)

/-- `isValidIP` from the source: the regex test, then
`parts.every(part => parseInt(part) <= 255)` over `ip.split('.')`
(a `NaN` comparison is false). -/
def isValidIP (ip : String) : Bool :=
  if !ipv4RegexTest ip then false
  else
    (splitOnChar '.' ip.data).all (fun part =>
      match jsParseInt part with
      | some n => decide (n ≤ 255)
      | none => false)

/-- Modelled from the spec's words (for the refinement claim about the
address validator): a dotted-quad IPv4 address — four dot-separated
fields, each a non-empty group of at most three decimal digits whose
value is an octet in `[0, 255]`. -/
def isDottedQuadIPv4 (s : String) : Bool :=
  let parts := splitOnChar '.' s.data
  parts.length == 4 &&
    parts.all (fun p => !p.isEmpty && decide (p.length ≤ 3) &&
      List.all p Char.isDigit && decide (digitsVal p ≤ 255))

/-! ## `isCommonISP` (OrganizationClassifier), lines 17-63 -/

/-- The hardcoded consumer-ISP keyword list `COMMON_ISPS`. -/
def COMMON_ISPS : List String :=
  ["telstra", "comcast", "cox", "verizon", "bt", "at&t", "spectrum",
   "charter", "time warner", "virgin media", "sprint", "t-mobile",
   "deutsche telekom", "vodafone", "orange", "rogers", "bell", "shaw",
   "telecom"]

/-- Whether `needle` occurs as a contiguous subsequence of `hay`. -/
def containsSeq (needle : List Char) : List Char → Bool
  | [] => needle.isEmpty
  | c :: rest => List.isPrefixOf needle (c :: rest) || containsSeq needle rest

/-- The test of `ISP_PATTERN = new RegExp(COMMON_ISPS.join('|'), 'i')`:
some keyword occurs, case-insensitively, as a substring. -/
def ispPatternTest (s : String) : Bool :=
  COMMON_ISPS.any (fun k => containsSeq k.data (s.data.map Char.toLower))

/-- `isCommonISP(isp?, org?)` from the source, with JS truthiness on the
two optional strings. -/
def isCommonISP (isp org : Option String) : Bool :=
  if !jsTruthyStr isp && !jsTruthyStr org then false
  else if jsTruthyStr isp && ispPatternTest (isp.getD "") then true
  else if jsTruthyStr org && ispPatternTest (org.getD "") then true
  else false

/-! ## Data model of the pipeline -/

/-- The geolocation payload returned by the IP-API provider, as the
fields the pipeline reads off `ipInfo` (each may be absent in the JSON).
Numeric latitude/longitude are carried opaquely as strings: the pipeline
only copies them. The `as` field of the payload is named `asName` here
(`as` is reserved in Lean). -/
structure IPInfo where
  country : Option String
  city : Option String
  regionName : Option String
  lat : Option String
  lon : Option String
  isp : Option String
  org : Option String
  asName : Option String
deriving DecidableEq, Repr

/-- The fields of an `IpEnrichmentJob` that drive the pipeline: its id,
the chosen IP column and the four feature flags. -/
structure Job where
  id : Nat
  ipColumnName : String
  includeGeolocation : Bool
  includeDomain : Bool
  includeCompany : Bool
  includeNetwork : Bool
deriving DecidableEq, Repr

/-- The mutable job fields touched by the pipeline and the storage layer
(`IpEnrichmentJob` columns). `completedAt` is modelled as a flag (set
or not). -/
structure JobState where
  status : String
  totalIPs : Option Nat
  processedIPs : Nat
  successfulIPs : Nat
  failedIPs : Nat
  filteredIPs : Nat
  partialSaveAvailable : Bool
  lastCheckpoint : Nat
  csvHeaders : List String
  completedAt : Bool
  error : Option String
deriving DecidableEq, Repr

/-- The job-state defaults installed by `createEnrichmentJob`. -/
def initialJobState : JobState :=
  { status := "pending", totalIPs := none, processedIPs := 0,
    successfulIPs := 0, failedIPs := 0, filteredIPs := 0,
    partialSaveAvailable := false, lastCheckpoint := 0,
    csvHeaders := [], completedAt := false, error := none }

/-- A persisted `ipEnrichmentResults` record (one per processed row,
keyed by `(jobId, rowIndex)`). -/
structure ResultRecord where
  id : Nat
  jobId : Nat
  rowIndex : Nat
  originalData : JObj
  enrichmentData : Option JObj
  processed : Bool
  success : Bool
  error : Option String
deriving DecidableEq, Repr

/-- The durable store: persisted result records, the log, an id counter
for inserted records, and the failure schedule of successive
`saveEnrichmentResults` batch writes (`sched k` tells whether the `k`-th
batch write succeeds; `flushCount` counts the writes attempted so far). -/
structure Store where
  persisted : List ResultRecord
  log : List String
  resultIdCounter : Nat
  sched : Nat → Bool
  flushCount : Nat

/-- An empty store with a given batch-write failure schedule. -/
def emptyStore (sched : Nat → Bool) : Store :=
  { persisted := [], log := [], resultIdCounter := 0, sched := sched,
    flushCount := 0 }

/-! ## `RowEnricher`: the per-row try/catch body, lines 195-281 -/

/-- The result of processing one row: the enriched output row, the
`enrichmentData` object stored with the batch, the success flag, the
`isCommonISP` verdict (`false` on failure), and how many geolocation and
reverse-DNS network calls were made for the row. -/
structure RowResult where
  enrichedRow : JObj
  enrichmentData : JObj
  success : Bool
  ispFlag : Bool
  geoCalls : Nat
  dnsCalls : Nat
deriving Repr

/-- `undefined`-aware injection of an optional string into a `JVal`
(assigning a possibly-`undefined` value to a property). -/
def optVal : Option String → JVal
  | some s => JVal.str s
  | none => JVal.undef

/-- The catch branch (lines 271-281): mark the row failed, record the
error in both the output row and the enrichment data. -/
def failRow (row : JObj) (ipVal : Option JVal) (msg : String)
    (geoCalls dnsCalls : Nat) : RowResult :=
  { enrichedRow := applySets row
      [("enrichment_success", JVal.str "false"),
       ("enrichment_error", JVal.str msg)],
    enrichmentData := applySets []
      [("success", JVal.bool false),
       ("error", JVal.str msg),
       ("ip", (ipVal).getD JVal.undef)],
    success := false, ispFlag := false,
    geoCalls := geoCalls, dnsCalls := dnsCalls }

/-- The sequence of assignments made to `enrichedRow` on the success
path (lines 217-265), in source order: the geolocation columns if
requested, the domain column if requested, the company columns (with the
`isp_filtered` marker) if requested, the network columns if requested,
then always the `enrichment_success`/`enrichment_error` markers.
`domain` is the reverse-DNS result, `isIsp` the classifier verdict. -/
def erKvsOf (job : Job) (info : IPInfo) (domain : Option String)
    (isIsp : Bool) : List (String × JVal) :=
  (if job.includeGeolocation then
    [("country", JVal.str (info.country.getD "")),
     ("city", JVal.str (info.city.getD "")),
     ("region", JVal.str (info.regionName.getD "")),
     ("latitude", JVal.str (info.lat.getD "")),
     ("longitude", JVal.str (info.lon.getD ""))] else [])
  ++ (if job.includeDomain then
    [("domain", JVal.str (domain.getD ""))] else [])
  ++ (if job.includeCompany then
    [("company", JVal.str (info.org.getD "")),
     ("isp_filtered", JVal.str (if isIsp then "yes" else "no"))]
    else [])
  ++ (if job.includeNetwork then
    [("isp", JVal.str (info.isp.getD "")),
     ("asn", JVal.str (info.asName.getD ""))] else [])
  ++ [("enrichment_success", JVal.str "true"),
      ("enrichment_error", JVal.str "")]

/-- The sequence of assignments made to `enrichmentData` on the success
path (lines 217-268), in source order, ending with `success = true` and
the echoed `ip`. -/
def edKvsOf (job : Job) (info : IPInfo) (domain : Option String)
    (isIsp : Bool) (ip : String) : List (String × JVal) :=
  (if job.includeGeolocation then
    [("country", optVal info.country),
     ("city", optVal info.city),
     ("region", optVal info.regionName),
     ("latitude", optVal info.lat),
     ("longitude", optVal info.lon)] else [])
  ++ (if job.includeDomain then [("domain", optVal domain)] else [])
  ++ (if job.includeCompany then
    [("company", optVal info.org),
     ("ispFiltered", JVal.bool isIsp)] else [])
  ++ (if job.includeNetwork then
    [("isp", optVal info.isp),
     ("asn", optVal info.asName)] else [])
  ++ [("success", JVal.bool true), ("ip", JVal.str ip)]

/-- One row of the main loop's try/catch (lines 195-281): validate the
IP-column value, call the geolocation service, optionally reverse DNS,
classify the organization, and build the enriched row and the
enrichment-data object under the job's feature flags. Assignment order
follows the source exactly. -/
def processRow (job : Job) (geo : String → Except String IPInfo)
    (dnsLookup : String → Option String) (row : JObj) : RowResult :=
  let ipVal := jget row job.ipColumnName
  match ipVal with
  | some (JVal.str s) =>
    if !(s == "") && isValidIP s then
      match geo s with
      | Except.error msg => failRow row ipVal msg 1 0
      | Except.ok info =>
        let isIsp := isCommonISP info.isp info.org
        let domain : Option String := dnsLookup s
        { enrichedRow := applySets row (erKvsOf job info domain isIsp),
          enrichmentData := applySets [] (edKvsOf job info domain isIsp s),
          success := true, ispFlag := isIsp,
          geoCalls := 1,
          dnsCalls := if job.includeDomain then 1 else 0 }
    else failRow row ipVal "Invalid IP address" 0 0
  | _ => failRow row ipVal "Invalid IP address" 0 0

/-! ## `BatchCheckpointer`: `saveBatchToDatabase`, lines 97-130 -/

/-- The batch size `BATCH_SIZE` of the auto-save loop. -/
def BATCH_SIZE : Nat := 100

/-- One record of the `batchData` array (lines 106-120): the `i`-th row
of the batch is persisted at `rowIndex = startIndex + i`; `enrichmentData`
is looked up positionally (`enrichmentResults[i] || null`), and `success`
and `error` are projected out of it with JS truthiness. `id` is the id
the store assigns on insert. -/
def mkRecord (jobId : Nat) (rowIndex : Nat) (row : JObj)
    (ed : Option JObj) (id : Nat) : ResultRecord :=
  { id := id, jobId := jobId, rowIndex := rowIndex,
    originalData := row, enrichmentData := ed,
    processed := ed.isSome,
    success := (match ed with
      | some e => jget e "success" == some (JVal.bool true)
      | none => false),
    error := (match ed with
      | some e => (match jget e "error" with
        | some (JVal.str m) => if m == "" then none else some m
        | _ => none)
      | none => none) }

/-- The `batchData` array built by the loop of `saveBatchToDatabase`. -/
def mkBatchData (jobId startIndex idStart : Nat) :
    List JObj → List JObj → List ResultRecord
  | [], _ => []
  | row :: rest, eds =>
    mkRecord jobId startIndex row eds.head? idStart ::
      mkBatchData jobId (startIndex + 1) (idStart + 1) rest eds.tail

/-- `saveBatchToDatabase(jobId, rows, startIndex, enrichmentResults)`:
if the batch write succeeds, the records are persisted and
`updateJobPartialSaveStatus` sets `partialSaveAvailable` and moves the
checkpoint to `startIndex + rows.length`; if it fails, the error is
logged and nothing else happens (the error is swallowed: "Continue
processing even if batch save fails"). -/
def saveBatchToDatabase (jobId : Nat) (rows : List JObj)
    (startIndex : Nat) (eds : List JObj) (js : JobState) (st : Store) :
    JobState × Store :=
  if st.sched st.flushCount then
    let batch := mkBatchData jobId startIndex st.resultIdCounter rows eds
    ({ js with partialSaveAvailable := true,
               lastCheckpoint := startIndex + rows.length },
     { st with persisted := st.persisted ++ batch,
               resultIdCounter := st.resultIdCounter + batch.length,
               flushCount := st.flushCount + 1,
               log := st.log ++ ["Batch saved to database"] })
  else
    (js, { st with flushCount := st.flushCount + 1,
                   log := st.log ++ ["Error saving batch to database"] })

/-! ## `EnrichmentPipeline`: `enrichIPAddresses`, lines 135-396 -/

/-- The output CSV header row (lines 176-189): the original headers plus
the enrichment columns of the enabled feature flags, then always
`enrichment_success, enrichment_error`. -/
def outputHeaders (job : Job) (headers : List String) : List String :=
  headers
    ++ (if job.includeGeolocation then
        ["country", "city", "region", "latitude", "longitude"] else [])
    ++ (if job.includeDomain then ["domain"] else [])
    ++ (if job.includeCompany then ["company", "isp_filtered"] else [])
    ++ (if job.includeNetwork then ["isp", "asn"] else [])
    ++ ["enrichment_success", "enrichment_error"]

/-- The state threaded through the row loop: the job row in the store,
the store itself, the local counters, the current batch and its start
index, and the data lines appended to the enriched output CSV. -/
structure LoopState where
  js : JobState
  st : Store
  processed : Nat
  successful : Nat
  failed : Nat
  filtered : Nat
  currentBatch : List JObj
  currentBatchEnrichment : List JObj
  batchStartIndex : Nat
  outputLines : List (List JVal)

/-- One iteration of `for (const row of results)` (lines 195-312):
enrich the row, update counters, append the output line, add the row to
the current batch, and — once the batch holds `BATCH_SIZE` rows — update
the job counters and flush the batch, then reset it and advance
`batchStartIndex`. -/
def stepRow (job : Job) (geo : String → Except String IPInfo)
    (dnsLookup : String → Option String) (ls : LoopState) (row : JObj) :
    LoopState :=
  let processed := ls.processed + 1
  let rr := processRow job geo dnsLookup row
  let currentBatch := ls.currentBatch ++ [row]
  let successful := ls.successful + (if rr.success then 1 else 0)
  let failed := ls.failed + (if rr.success then 0 else 1)
  let filtered := ls.filtered + (if rr.success && rr.ispFlag then 1 else 0)
  let currentBatchEnrichment :=
    ls.currentBatchEnrichment ++ [rr.enrichmentData]
  let outputLines := ls.outputLines ++ [jvalues rr.enrichedRow]
  if BATCH_SIZE ≤ currentBatch.length then
    let js1 := { ls.js with
      processedIPs := processed, successfulIPs := successful,
      failedIPs := failed, filteredIPs := filtered }
    let flushed := saveBatchToDatabase job.id currentBatch
      ls.batchStartIndex currentBatchEnrichment js1 ls.st
    { js := flushed.1, st := flushed.2, processed := processed,
      successful := successful, failed := failed, filtered := filtered,
      currentBatch := [], currentBatchEnrichment := [],
      batchStartIndex := ls.batchStartIndex + currentBatch.length,
      outputLines := outputLines }
  else
    { js := ls.js, st := ls.st, processed := processed,
      successful := successful, failed := failed, filtered := filtered,
      currentBatch := currentBatch,
      currentBatchEnrichment := currentBatchEnrichment,
      batchStartIndex := ls.batchStartIndex,
      outputLines := outputLines }

/-- The whole row loop. -/
def processRows (job : Job) (geo : String → Except String IPInfo)
    (dnsLookup : String → Option String) (ls : LoopState)
    (rows : List JObj) : LoopState :=
  List.foldl (stepRow job geo dnsLookup) ls rows

/-- The loop state at the start of the `end` handler: the job has been
moved to `processing` (line 152), `csvHeaders` stored (line 161) and
`totalIPs` set to the number of parsed rows (lines 171-173); counters
and the batch are fresh. -/
def initialLoopState (headers : List String) (rows : List JObj)
    (js0 : JobState) (st0 : Store) : LoopState :=
  { js := { js0 with
      status := "processing", csvHeaders := headers,
      totalIPs := some rows.length },
    st := st0, processed := 0, successful := 0, failed := 0,
    filtered := 0, currentBatch := [], currentBatchEnrichment := [],
    batchStartIndex := 0, outputLines := [] }

/-- The pipeline state immediately after the final flush (lines
314-322): the row loop has run and any remaining partial batch has been
saved (`batchStartIndex` is not advanced by this last call). -/
def afterFinalFlush (job : Job) (headers : List String)
    (rows : List JObj) (geo : String → Except String IPInfo)
    (dnsLookup : String → Option String) (js0 : JobState) (st0 : Store) :
    LoopState :=
  let ls := processRows job geo dnsLookup
    (initialLoopState headers rows js0 st0) rows
  if 0 < ls.currentBatch.length then
    let flushed := saveBatchToDatabase job.id ls.currentBatch
      ls.batchStartIndex ls.currentBatchEnrichment ls.js ls.st
    { ls with js := flushed.1, st := flushed.2 }
  else ls

/-- The full happy path of `enrichIPAddresses` — the `end` handler
reached with no stream-level error: after the final flush the job is
marked completed (lines 324-334) with its final counters,
`partialSaveAvailable = true` and `lastCheckpoint = results.length`. -/
def enrichIPAddresses (job : Job) (headers : List String)
    (rows : List JObj) (geo : String → Except String IPInfo)
    (dnsLookup : String → Option String) (js0 : JobState) (st0 : Store) :
    LoopState :=
  let ls := afterFinalFlush job headers rows geo dnsLookup js0 st0
  { ls with
    js := { ls.js with
      status := "completed", completedAt := true,
      processedIPs := ls.processed, successfulIPs := ls.successful,
      failedIPs := ls.failed, filteredIPs := ls.filtered,
      partialSaveAvailable := true, lastCheckpoint := rows.length } }

/-! ## Storage queries (`db.ts`) and route handlers (`registerRoutes`) -/

/-- The comparator of `getEnrichmentResults`:
`(a, b) => a.rowIndex - b.rowIndex` (ascending row index). -/
def rowLe (a b : ResultRecord) : Prop := a.rowIndex ≤ b.rowIndex

instance : DecidableRel rowLe := fun a b =>
  inferInstanceAs (Decidable (a.rowIndex ≤ b.rowIndex))

instance : IsTotal ResultRecord rowLe :=
  ⟨fun a b => Nat.le_total a.rowIndex b.rowIndex⟩

instance : IsTrans ResultRecord rowLe :=
  ⟨fun _ _ _ h h2 => Nat.le_trans h h2⟩

/-- The row-index sort of `getEnrichmentResults`. -/
def sortByRowIndex (l : List ResultRecord) : List ResultRecord :=
  List.insertionSort rowLe l

/-- `getEnrichmentResults(jobId, offset, limit)` (`MemStorage`, and
equivalently the `DBStorage` query `where jobId order by rowIndex asc
offset limit`): the job's records in ascending row-index order, skipping
`offset` and returning at most `limit`. -/
def getEnrichmentResults (persisted : List ResultRecord)
    (jobId offset limit : Nat) : List ResultRecord :=
  ((sortByRowIndex (persisted.filter (fun r => r.jobId == jobId))).drop
    offset).take limit

/-- The sample IP pool of the recent-results route. -/
def sampleIPs : List String :=
  ["216.58.215.110", "172.217.169.46", "31.13.92.36", "199.232.68.133",
   "52.95.120.67", "104.16.85.20", "13.107.42.14", "151.101.129.140"]

/-- One fabricated sample record of the recent-results route (only
produced in sample mode): `now` stands for `Date.now()` and `rlat`,
`rlon` for the randomly jittered latitude/longitude (floating-point
jitter carried opaquely). -/
def sampleRecord (jobId since now : Nat) (rlat rlon : String) (i : Nat) :
    ResultRecord :=
  let ipIndex := (now + i) % sampleIPs.length
  let ip := (sampleIPs.get? ipIndex).getD ""
  { id := since + i, jobId := jobId, rowIndex := since + i,
    originalData := [("ip", JVal.str ip)],
    enrichmentData := some
      [("ip", JVal.str ip),
       ("domain", JVal.str ("company-" ++ toString ipIndex ++ ".example.com")),
       ("company", JVal.str ("Company " ++ toString (ipIndex + 1) ++ " Ltd.")),
       ("country", JVal.str ((["United States", "Canada", "United Kingdom",
          "Germany", "Australia"].get? (ipIndex % 5)).getD "")),
       ("city", JVal.str ((["New York", "San Francisco", "London", "Berlin",
          "Sydney"].get? (ipIndex % 5)).getD "")),
       ("region", JVal.str ((["New York", "California", "England",
          "Brandenburg", "New South Wales"].get? (ipIndex % 5)).getD "")),
       ("latitude", JVal.str rlat),
       ("longitude", JVal.str rlon),
       ("isp", JVal.str ("ISP Provider " ++ toString (ipIndex + 1))),
       ("asn", JVal.str ("AS" ++ toString (10000 + ipIndex))),
       ("success", JVal.bool true)],
    processed := true, success := true, error := none }

/-- The fabricated sample result list (`3 + Date.now() % 3` records). -/
def sampleResults (jobId since now : Nat) (rlat rlon : String) :
    List ResultRecord :=
  (List.range (3 + now % 3)).map (sampleRecord jobId since now rlat rlon)

/-- The response of `GET /api/jobs/:id/recent-results`. -/
structure RecentResultsResponse where
  results : List ResultRecord
  nextIndex : Nat
deriving Repr

/-- The recent-results route handler (`registerRoutes`, recent-results
endpoint): fetch the job's records starting at the `since` index; in
sample mode, when no real data exists and the job is still processing,
fabricate sample records instead; respond with the records and
`nextIndex = since + results.length`. -/
def recentResults (persisted : List ResultRecord) (jobStatus : String)
    (jobId since limit : Nat) (sample : Bool) (now : Nat)
    (rlat rlon : String) : RecentResultsResponse :=
  let results := getEnrichmentResults persisted jobId since limit
  let results :=
    if results.length == 0 && sample && jobStatus == "processing" then
      sampleResults jobId since now rlat rlon
    else results
  { results := results, nextIndex := since + results.length }

/-- `csv-parser` applied to one data line of the enriched CSV: cells are
matched to headers positionally (a short line simply yields no entries
for the trailing headers). -/
def parseCsvRow (headers : List String) (vals : List JVal) : JObj :=
  headers.zip vals

/-- The per-row filter of the download route: keep the row unless its
`isp_filtered` cell is `"yes"` (`row.isp_filtered !== "yes"`). -/
def downloadRowKeep (row : JObj) : Bool :=
  !(jget row "isp_filtered" == some (JVal.str "yes"))

/-- The rows of the filtered download artifact: each data line of the
enriched CSV is parsed against its header row, and rows whose
`isp_filtered` cell is `"yes"` are dropped. -/
def filteredKeptRows (headers : List String)
    (dataLines : List (List JVal)) : List JObj :=
  (dataLines.map (parseCsvRow headers)).filter downloadRowKeep

/-- The filtered CSV written by the download route: the header row, then
each kept row projected back onto the headers. -/
def downloadFilteredArtifact (headers : List String)
    (dataLines : List (List JVal)) : List (List JVal) :=
  (headers.map JVal.str) ::
    (filteredKeptRows headers dataLines).map
      (fun row => headers.map (fun h => (jget row h).getD JVal.undef))

/-! ## Lemmas about the address validator -/

theorem takeWhile_eq_self_of_all {p : Char → Bool} :
    ∀ l : List Char, l.all p = true → l.takeWhile p = l := by
  intro l h
  induction l with
  | nil => rfl
  | cons c cs ih =>
    simp only [List.all_cons, Bool.and_eq_true] at h
    simp [List.takeWhile, h.1, ih h.2]

theorem octet_checks_agree (P : List (List Char))
    (hA : P.all (fun p => decide (1 ≤ p.length) && decide (p.length ≤ 3) &&
      List.all p Char.isDigit) = true) :
    (P.all (fun part =>
      match jsParseInt part with
      | some n => decide (n ≤ 255)
      | none => false)) =
    (P.all (fun p => !p.isEmpty && decide (p.length ≤ 3) &&
      List.all p Char.isDigit && decide (digitsVal p ≤ 255))) := by
  induction P with
  | nil => rfl
  | cons p rest ih =>
    simp only [List.all_cons, Bool.and_eq_true] at hA
    obtain ⟨⟨⟨h1, h3⟩, hd⟩, hrest⟩ := hA
    have hne : p ≠ [] := by
      cases p with
      | nil => simp at h1
      | cons c cs => simp
    have htw : List.takeWhile Char.isDigit p = p :=
      takeWhile_eq_self_of_all p hd
    simp only [List.all_cons]
    rw [ih hrest]
    congr 1
    simp only [jsParseInt, htw]
    rw [if_neg (by simpa [List.isEmpty_iff] using hne)]
    simp [hne, List.isEmpty_iff, h3, hd]

/-- The two per-part conditions of the spec-side predicate imply the
regex-side condition. -/
theorem spec_part_imp_regex_part (p : List Char) :
    (!p.isEmpty && decide (p.length ≤ 3) &&
      List.all p Char.isDigit && decide (digitsVal p ≤ 255)) = true →
    (decide (1 ≤ p.length) && decide (p.length ≤ 3) &&
      List.all p Char.isDigit) = true := by
  intro h
  simp only [Bool.and_eq_true, decide_eq_true_eq] at h ⊢
  obtain ⟨⟨⟨hne, hlen⟩, hdig⟩, _⟩ := h
  refine ⟨⟨?_, hlen⟩, hdig⟩
  cases p with
  | nil => simp at hne
  | cons c cs => simp

theorem dotted_imp_regex (s : String) :
    isDottedQuadIPv4 s = true → ipv4RegexTest s = true := by
  intro h
  unfold isDottedQuadIPv4 at h
  unfold ipv4RegexTest
  rw [Bool.and_eq_true] at h ⊢
  obtain ⟨h4, hall⟩ := h
  rw [List.all_eq_true] at hall
  exact ⟨h4, List.all_eq_true.mpr
    (fun p hp => spec_part_imp_regex_part p (hall p hp))⟩

/-- The validator of the source and the spec-side dotted-quad predicate
agree on every string. -/
theorem isValidIP_eq_isDottedQuadIPv4 (s : String) :
    isValidIP s = isDottedQuadIPv4 s := by
  cases hA : ipv4RegexTest s with
  | false =>
    have hd : isDottedQuadIPv4 s = false := by
      cases hD : isDottedQuadIPv4 s
      · rfl
      · rw [dotted_imp_regex s hD] at hA
        exact absurd hA (by simp)
    rw [hd]
    simp [isValidIP, hA]
  | true =>
    have h4 : ((splitOnChar '.' s.data).length == 4) = true ∧
        (splitOnChar '.' s.data).all
          (fun p => decide (1 ≤ p.length) && decide (p.length ≤ 3) &&
            List.all p Char.isDigit) = true := by
      simpa [ipv4RegexTest, Bool.and_eq_true] using hA
    calc isValidIP s
        = (splitOnChar '.' s.data).all (fun part =>
            match jsParseInt part with
            | some n => decide (n ≤ 255)
            | none => false) := by simp [isValidIP, hA]
      _ = (splitOnChar '.' s.data).all
            (fun p => !p.isEmpty && decide (p.length ≤ 3) &&
              List.all p Char.isDigit && decide (digitsVal p ≤ 255)) :=
          octet_checks_agree _ h4.2
      _ = isDottedQuadIPv4 s := by
          simp [isDottedQuadIPv4, h4.1]

/-- C7: `isValidIP` returns true exactly on dotted-quad IPv4 addresses
with each octet in `[0, 255]` (and fields of one to three digits); it
rejects the empty string, wrong octet counts, non-numeric octets and
leading/trailing garbage. It is a Lean function, hence pure and total
(the source likewise cannot throw: a regex test plus `parseInt`
comparisons). -/
theorem isValidIP_characterisation :
    (∀ s : String, isValidIP s = isDottedQuadIPv4 s) ∧
    isValidIP "" = false ∧
    isValidIP "1.2.3" = false ∧
    isValidIP "1.2.3.4.5" = false ∧
    isValidIP "a.b.c.d" = false ∧
    isValidIP "x1.2.3.4" = false ∧
    isValidIP "1.2.3.4x" = false ∧
    isValidIP " 1.2.3.4" = false ∧
    isValidIP "1.2.3.4 " = false ∧
    isValidIP "999.999.999.999" = false ∧
    isValidIP "1.2.3.256" = false ∧
    isValidIP "1.2.3.4" = true ∧
    isValidIP "255.0.0.1" = true :=
  ⟨isValidIP_eq_isDottedQuadIPv4, by decide, by decide, by decide,
   by decide, by decide, by decide, by decide, by decide, by decide,
   by decide, by decide, by decide⟩

/-! ## Object lemmas -/

theorem jget_eq_none_of_not_mem {o : JObj} {k : String}
    (h : k ∉ jkeys o) : jget o k = none := by
  unfold jget
  rw [List.find?_eq_none.mpr, Option.map_none']
  intro p hp hpk
  exact h (by
    simp only [jkeys, List.mem_map]
    exact ⟨p, hp, by simpa using hpk⟩)

theorem jset_eq_append_of_not_mem {o : JObj} {k : String} (v : JVal)
    (h : k ∉ jkeys o) : jset o k v = o ++ [(k, v)] := by
  unfold jset
  rw [if_neg]
  have := jget_eq_none_of_not_mem h
  unfold jget at this
  intro hs
  rw [Option.isSome_iff_exists] at hs
  obtain ⟨p, hp⟩ := hs
  rw [hp] at this
  simp at this

theorem jkeys_append (o1 o2 : JObj) :
    jkeys (o1 ++ o2) = jkeys o1 ++ jkeys o2 := by
  simp [jkeys]

theorem jvalues_append (o1 o2 : JObj) :
    jvalues (o1 ++ o2) = jvalues o1 ++ jvalues o2 := by
  simp [jvalues]

/-- A sequence of assignments of pairwise distinct fresh keys appends the
key-value pairs in order. -/
theorem applySets_eq_append {kvs : List (String × JVal)} :
    ∀ {o : JObj}, (jkeys o ++ kvs.map Prod.fst).Nodup →
    applySets o kvs = o ++ kvs := by
  induction kvs with
  | nil => intro o _; simp [applySets]
  | cons kv rest ih =>
    intro o hnd
    have hk : kv.1 ∉ jkeys o := by
      intro hmem
      have hdisj := (List.nodup_append.mp hnd).2.2
      exact hdisj hmem (by simp)
    have step : jset o kv.1 kv.2 = o ++ [(kv.1, kv.2)] :=
      jset_eq_append_of_not_mem kv.2 hk
    have htail : (jkeys (o ++ [(kv.1, kv.2)]) ++
        rest.map Prod.fst).Nodup := by
      rw [jkeys_append]
      have : jkeys [(kv.1, kv.2)] = [kv.1] := by simp [jkeys]
      rw [this]
      simpa [List.append_assoc] using hnd
    calc applySets o (kv :: rest)
        = applySets (jset o kv.1 kv.2) rest := by
          simp [applySets]
      _ = applySets (o ++ [(kv.1, kv.2)]) rest := by rw [step]
      _ = (o ++ [(kv.1, kv.2)]) ++ rest := ih htail
      _ = o ++ (kv :: rest) := by simp

/-! ## Claims about the row enricher -/

/-- C6: a row whose IP-column value is missing, empty, or rejected by the
validator yields `success=false` with error `"Invalid IP address"`, the
raw value is echoed as `ip`, and neither the geolocation lookup nor
reverse DNS is called for the row. -/
theorem invalid_ip_no_network_calls (job : Job)
    (geo : String → Except String IPInfo)
    (dnsLookup : String → Option String) (row : JObj)
    (h : jget row job.ipColumnName = none ∨
      ∃ s, jget row job.ipColumnName = some (JVal.str s) ∧
        (s = "" ∨ isValidIP s = false)) :
    (processRow job geo dnsLookup row).geoCalls = 0 ∧
    (processRow job geo dnsLookup row).dnsCalls = 0 ∧
    (processRow job geo dnsLookup row).success = false ∧
    jget (processRow job geo dnsLookup row).enrichmentData "success" =
      some (JVal.bool false) ∧
    jget (processRow job geo dnsLookup row).enrichmentData "error" =
      some (JVal.str "Invalid IP address") ∧
    jget (processRow job geo dnsLookup row).enrichmentData "ip" =
      some ((jget row job.ipColumnName).getD JVal.undef) := by
  rcases h with hip | ⟨s, hip, hcase⟩
  · simp only [processRow, hip]
    exact ⟨rfl, rfl, rfl, rfl, rfl, rfl⟩
  · have hcond : (!(s == "") && isValidIP s) = false := by
      rcases hcase with rfl | hval
      · simp
      · simp [hval]
    simp only [processRow, hip, hcond, Bool.false_eq_true, if_false]
    exact ⟨rfl, rfl, rfl, rfl, rfl, rfl⟩

/-- Witness for C6 at the spec's concrete example `"999.999.999.999"`. -/
theorem invalid_ip_no_network_calls_witness :
    (processRow
      { id := 1, ipColumnName := "ip", includeGeolocation := true,
        includeDomain := true, includeCompany := true,
        includeNetwork := true }
      (fun _ => Except.ok
        { country := some "X", city := none, regionName := none,
          lat := none, lon := none, isp := none, org := none,
          asName := none })
      (fun _ => none)
      [("ip", JVal.str "999.999.999.999")]).geoCalls = 0 ∧
    (processRow
      { id := 1, ipColumnName := "ip", includeGeolocation := true,
        includeDomain := true, includeCompany := true,
        includeNetwork := true }
      (fun _ => Except.ok
        { country := some "X", city := none, regionName := none,
          lat := none, lon := none, isp := none, org := none,
          asName := none })
      (fun _ => none)
      [("ip", JVal.str "999.999.999.999")]).dnsCalls = 0 ∧
    (processRow
      { id := 1, ipColumnName := "ip", includeGeolocation := true,
        includeDomain := true, includeCompany := true,
        includeNetwork := true }
      (fun _ => Except.ok
        { country := some "X", city := none, regionName := none,
          lat := none, lon := none, isp := none, org := none,
          asName := none })
      (fun _ => none)
      [("ip", JVal.str "999.999.999.999")]).success = false ∧
    jget (processRow
      { id := 1, ipColumnName := "ip", includeGeolocation := true,
        includeDomain := true, includeCompany := true,
        includeNetwork := true }
      (fun _ => Except.ok
        { country := some "X", city := none, regionName := none,
          lat := none, lon := none, isp := none, org := none,
          asName := none })
      (fun _ => none)
      [("ip", JVal.str "999.999.999.999")]).enrichmentData "success" =
      some (JVal.bool false) ∧
    jget (processRow
      { id := 1, ipColumnName := "ip", includeGeolocation := true,
        includeDomain := true, includeCompany := true,
        includeNetwork := true }
      (fun _ => Except.ok
        { country := some "X", city := none, regionName := none,
          lat := none, lon := none, isp := none, org := none,
          asName := none })
      (fun _ => none)
      [("ip", JVal.str "999.999.999.999")]).enrichmentData "error" =
      some (JVal.str "Invalid IP address") ∧
    jget (processRow
      { id := 1, ipColumnName := "ip", includeGeolocation := true,
        includeDomain := true, includeCompany := true,
        includeNetwork := true }
      (fun _ => Except.ok
        { country := some "X", city := none, regionName := none,
          lat := none, lon := none, isp := none, org := none,
          asName := none })
      (fun _ => none)
      [("ip", JVal.str "999.999.999.999")]).enrichmentData "ip" =
      some ((jget [("ip", JVal.str "999.999.999.999")] "ip").getD
        JVal.undef) :=
  invalid_ip_no_network_calls _ _ _ _
    (Or.inr ⟨"999.999.999.999", by decide, Or.inr (by decide)⟩)

/-- On the success path (valid IP, geolocation lookup succeeded) the row
result is the structure built from the two assignment sequences. -/
theorem processRow_geo_ok (job : Job)
    (geo : String → Except String IPInfo)
    (dnsLookup : String → Option String) (row : JObj) (s : String)
    (info : IPInfo)
    (hip : jget row job.ipColumnName = some (JVal.str s))
    (hc : (!(s == "") && isValidIP s) = true)
    (hg : geo s = Except.ok info) :
    processRow job geo dnsLookup row =
      { enrichedRow := applySets row (erKvsOf job info (dnsLookup s)
          (isCommonISP info.isp info.org)),
        enrichmentData := applySets [] (edKvsOf job info (dnsLookup s)
          (isCommonISP info.isp info.org) s),
        success := true, ispFlag := isCommonISP info.isp info.org,
        geoCalls := 1,
        dnsCalls := if job.includeDomain then 1 else 0 } := by
  simp only [processRow, hip, hc, if_true, hg]

/-- The keys assigned into `enrichmentData` on the success path are
pairwise distinct, so the assignments append in order. -/
theorem edKvs_applySets (job : Job) (info : IPInfo)
    (domain : Option String) (isIsp : Bool) (ip : String) :
    applySets [] (edKvsOf job info domain isIsp ip) =
      edKvsOf job info domain isIsp ip := by
  have h : (jkeys ([] : JObj) ++
      (edKvsOf job info domain isIsp ip).map Prod.fst).Nodup := by
    cases hG : job.includeGeolocation <;>
      cases hD : job.includeDomain <;>
      cases hC : job.includeCompany <;>
      cases hN : job.includeNetwork <;>
      simp [edKvsOf, hG, hD, hC, hN, jkeys]
  exact applySets_eq_append h

/-- Field presence in the success-path `enrichmentData` matches the
feature flags exactly. -/
theorem edKvs_fields (job : Job) (info : IPInfo)
    (domain : Option String) (isIsp : Bool) (ip : String) :
    (jget (edKvsOf job info domain isIsp ip) "country").isSome =
      job.includeGeolocation ∧
    (jget (edKvsOf job info domain isIsp ip) "city").isSome =
      job.includeGeolocation ∧
    (jget (edKvsOf job info domain isIsp ip) "region").isSome =
      job.includeGeolocation ∧
    (jget (edKvsOf job info domain isIsp ip) "latitude").isSome =
      job.includeGeolocation ∧
    (jget (edKvsOf job info domain isIsp ip) "longitude").isSome =
      job.includeGeolocation ∧
    (jget (edKvsOf job info domain isIsp ip) "domain").isSome =
      job.includeDomain ∧
    (jget (edKvsOf job info domain isIsp ip) "company").isSome =
      job.includeCompany ∧
    (jget (edKvsOf job info domain isIsp ip) "ispFiltered").isSome =
      job.includeCompany ∧
    (jget (edKvsOf job info domain isIsp ip) "isp").isSome =
      job.includeNetwork ∧
    (jget (edKvsOf job info domain isIsp ip) "asn").isSome =
      job.includeNetwork ∧
    jget (edKvsOf job info domain isIsp ip) "success" =
      some (JVal.bool true) ∧
    (jget (edKvsOf job info domain isIsp ip) "ip").isSome = true ∧
    jget (edKvsOf job info domain isIsp ip) "error" = none := by
  cases hG : job.includeGeolocation <;>
    cases hD : job.includeDomain <;>
    cases hC : job.includeCompany <;>
    cases hN : job.includeNetwork <;>
    simp only [edKvsOf, hG, hD, hC, hN, eq_self_iff_true,
      Bool.false_eq_true, if_true, if_false] <;>
    exact ⟨rfl, rfl, rfl, rfl, rfl, rfl, rfl, rfl, rfl, rfl, rfl, rfl,
      rfl⟩

/-- C4: on failure the enrichment object carries exactly
`success, error, ip` (in that assignment order); on success the
enrichment fields present are exactly the ones of the enabled feature
flags (plus the core `success` and `ip` fields, and no `error`). -/
theorem outcome_fields_match_flags (job : Job)
    (geo : String → Except String IPInfo)
    (dnsLookup : String → Option String) (row : JObj) :
    ((processRow job geo dnsLookup row).success = false →
      jkeys (processRow job geo dnsLookup row).enrichmentData =
        ["success", "error", "ip"]) ∧
    ((processRow job geo dnsLookup row).success = true →
      (jget (processRow job geo dnsLookup row).enrichmentData
        "country").isSome = job.includeGeolocation ∧
      (jget (processRow job geo dnsLookup row).enrichmentData
        "city").isSome = job.includeGeolocation ∧
      (jget (processRow job geo dnsLookup row).enrichmentData
        "region").isSome = job.includeGeolocation ∧
      (jget (processRow job geo dnsLookup row).enrichmentData
        "latitude").isSome = job.includeGeolocation ∧
      (jget (processRow job geo dnsLookup row).enrichmentData
        "longitude").isSome = job.includeGeolocation ∧
      (jget (processRow job geo dnsLookup row).enrichmentData
        "domain").isSome = job.includeDomain ∧
      (jget (processRow job geo dnsLookup row).enrichmentData
        "company").isSome = job.includeCompany ∧
      (jget (processRow job geo dnsLookup row).enrichmentData
        "ispFiltered").isSome = job.includeCompany ∧
      (jget (processRow job geo dnsLookup row).enrichmentData
        "isp").isSome = job.includeNetwork ∧
      (jget (processRow job geo dnsLookup row).enrichmentData
        "asn").isSome = job.includeNetwork ∧
      jget (processRow job geo dnsLookup row).enrichmentData "success" =
        some (JVal.bool true) ∧
      (jget (processRow job geo dnsLookup row).enrichmentData
        "ip").isSome = true ∧
      jget (processRow job geo dnsLookup row).enrichmentData "error" =
        none) := by
  rcases hip : jget row job.ipColumnName with _ | v
  · refine ⟨fun _ => ?_, fun hs => ?_⟩
    · simp only [processRow, hip]
      rfl
    · simp only [processRow, hip] at hs
      exact absurd hs (by simp [failRow])
  · cases v with
    | str s =>
      cases hc : (!(s == "") && isValidIP s) with
      | false =>
        refine ⟨fun _ => ?_, fun hs => ?_⟩
        · simp only [processRow, hip, hc, Bool.false_eq_true, if_false]
          rfl
        · simp only [processRow, hip, hc, Bool.false_eq_true,
            if_false] at hs
          exact absurd hs (by simp [failRow])
      | true =>
        rcases hg : geo s with msg | info
        · refine ⟨fun _ => ?_, fun hs => ?_⟩
          · simp only [processRow, hip, hc, if_true, hg]
            rfl
          · simp only [processRow, hip, hc, if_true, hg] at hs
            exact absurd hs (by simp [failRow])
        · refine ⟨fun hs => ?_, fun _ => ?_⟩
          · rw [processRow_geo_ok job geo dnsLookup row s info hip hc
              hg] at hs
            exact absurd hs (by simp)
          · simp only [processRow_geo_ok job geo dnsLookup row s info
              hip hc hg, edKvs_applySets]
            exact edKvs_fields job info (dnsLookup s)
              (isCommonISP info.isp info.org) s
    | bool b =>
      refine ⟨fun _ => ?_, fun hs => ?_⟩
      · simp only [processRow, hip]
        rfl
      · simp only [processRow, hip] at hs
        exact absurd hs (by simp [failRow])
    | undef =>
      refine ⟨fun _ => ?_, fun hs => ?_⟩
      · simp only [processRow, hip]
        rfl
      · simp only [processRow, hip] at hs
        exact absurd hs (by simp [failRow])

/-- Witness for C4: a concrete failing row carries exactly
`success, error, ip`, and on a concrete successful row with
`includeDomain = false` the `domain` field is absent. -/
theorem outcome_fields_match_flags_witness :
    jkeys (processRow
      { id := 1, ipColumnName := "ip", includeGeolocation := false,
        includeDomain := true, includeCompany := false,
        includeNetwork := true }
      (fun _ => Except.error "boom") (fun _ => none)
      [("ip", JVal.str "nope")]).enrichmentData =
      ["success", "error", "ip"] ∧
    (jget (processRow
      { id := 2, ipColumnName := "ip", includeGeolocation := true,
        includeDomain := false, includeCompany := true,
        includeNetwork := false }
      (fun _ => Except.ok
        { country := some "US", city := some "NYC",
          regionName := some "NY", lat := some "1", lon := some "2",
          isp := some "Comcast Cable", org := some "Comcast Cable",
          asName := some "AS1" })
      (fun _ => none)
      [("ip", JVal.str "1.2.3.4")]).enrichmentData "domain").isSome =
      false :=
  ⟨(outcome_fields_match_flags
      { id := 1, ipColumnName := "ip", includeGeolocation := false,
        includeDomain := true, includeCompany := false,
        includeNetwork := true }
      (fun _ => Except.error "boom") (fun _ => none)
      [("ip", JVal.str "nope")]).1 (by decide),
   ((outcome_fields_match_flags
      { id := 2, ipColumnName := "ip", includeGeolocation := true,
        includeDomain := false, includeCompany := true,
        includeNetwork := false }
      (fun _ => Except.ok
        { country := some "US", city := some "NYC",
          regionName := some "NY", lat := some "1", lon := some "2",
          isp := some "Comcast Cable", org := some "Comcast Cable",
          asName := some "AS1" })
      (fun _ => none)
      [("ip", JVal.str "1.2.3.4")]).2 (by decide)).2.2.2.2.2.1⟩

/-- Every failed row is a `failRow` over the raw IP-column value. -/
theorem processRow_fail_shape (job : Job)
    (geo : String → Except String IPInfo)
    (dnsLookup : String → Option String) (row : JObj)
    (hfail : (processRow job geo dnsLookup row).success = false) :
    ∃ msg g d, processRow job geo dnsLookup row =
      failRow row (jget row job.ipColumnName) msg g d := by
  rcases hip : jget row job.ipColumnName with _ | v
  · exact ⟨"Invalid IP address", 0, 0, by simp only [processRow, hip]⟩
  · cases v with
    | str s =>
      cases hc : (!(s == "") && isValidIP s) with
      | false =>
        exact ⟨"Invalid IP address", 0, 0, by
          simp only [processRow, hip, hc, Bool.false_eq_true, if_false]⟩
      | true =>
        rcases hg : geo s with msg | info
        · exact ⟨msg, 1, 0, by
            simp only [processRow, hip, hc, if_true, hg]⟩
        · rw [processRow_geo_ok job geo dnsLookup row s info hip hc
            hg] at hfail
          exact absurd hfail (by simp)
    | bool b =>
      exact ⟨"Invalid IP address", 0, 0, by simp only [processRow, hip]⟩
    | undef =>
      exact ⟨"Invalid IP address", 0, 0, by simp only [processRow, hip]⟩

/-- C10: when a row fails while at least one feature flag is enabled,
its output line is the original cell values followed only by the
`enrichment_success`/`enrichment_error` cells — no placeholders for the
flag-dependent enrichment columns — so the line is strictly shorter than
the output header row and its cells do not align positionally with it. -/
theorem failed_row_line_misaligned (job : Job)
    (geo : String → Except String IPInfo)
    (dnsLookup : String → Option String) (row : JObj)
    (headers : List String)
    (hkeys : jkeys row = headers)
    (hnd : headers.Nodup)
    (hes : "enrichment_success" ∉ headers)
    (hee : "enrichment_error" ∉ headers)
    (hfail : (processRow job geo dnsLookup row).success = false)
    (hflag : (job.includeGeolocation || job.includeDomain ||
      job.includeCompany || job.includeNetwork) = true) :
    (∃ msg, jget (processRow job geo dnsLookup row).enrichmentData
        "error" = some (JVal.str msg) ∧
      jvalues (processRow job geo dnsLookup row).enrichedRow =
        jvalues row ++ [JVal.str "false", JVal.str msg]) ∧
    (jvalues (processRow job geo dnsLookup row).enrichedRow).length <
      (outputHeaders job headers).length := by
  obtain ⟨msg, g, d, hshape⟩ :=
    processRow_fail_shape job geo dnsLookup row hfail
  have hset : applySets row
      [("enrichment_success", JVal.str "false"),
       ("enrichment_error", JVal.str msg)] =
      row ++ [("enrichment_success", JVal.str "false"),
        ("enrichment_error", JVal.str msg)] := by
    apply applySets_eq_append
    rw [hkeys]
    rw [List.nodup_append]
    refine ⟨hnd, by simp, ?_⟩
    intro a ha hmem
    simp only [List.map_cons, List.map_nil, List.mem_cons,
      List.mem_singleton] at hmem
    rcases hmem with rfl | hmem
    · exact hes ha
    · simp only [List.not_mem_nil, or_false] at hmem
      subst hmem
      exact hee ha
  have hvals : jvalues (processRow job geo dnsLookup row).enrichedRow =
      jvalues row ++ [JVal.str "false", JVal.str msg] := by
    rw [hshape]
    show jvalues (applySets row _) = _
    rw [hset, jvalues_append]
    rfl
  have hrowlen : (jvalues row).length = headers.length := by
    rw [← hkeys]
    simp [jvalues, jkeys]
  refine ⟨⟨msg, ?_, hvals⟩, ?_⟩
  · rw [hshape]
    rfl
  · rw [hvals]
    simp only [List.length_append, hrowlen, outputHeaders]
    cases hG : job.includeGeolocation <;>
      cases hD : job.includeDomain <;>
      cases hC : job.includeCompany <;>
      cases hN : job.includeNetwork <;>
      simp only [hG, hD, hC, hN] at hflag ⊢ <;>
      simp at hflag ⊢

/-- Witness for C10 at a concrete failed row with geolocation and
network columns enabled. -/
theorem failed_row_line_misaligned_witness :
    (∃ msg, jget (processRow
        { id := 3, ipColumnName := "ip", includeGeolocation := true,
          includeDomain := false, includeCompany := false,
          includeNetwork := true }
        (fun _ => Except.error "timeout") (fun _ => none)
        [("ip", JVal.str "1.2.3.4"), ("name", JVal.str "a")]
      ).enrichmentData "error" = some (JVal.str msg) ∧
      jvalues (processRow
        { id := 3, ipColumnName := "ip", includeGeolocation := true,
          includeDomain := false, includeCompany := false,
          includeNetwork := true }
        (fun _ => Except.error "timeout") (fun _ => none)
        [("ip", JVal.str "1.2.3.4"), ("name", JVal.str "a")]
      ).enrichedRow =
        jvalues [("ip", JVal.str "1.2.3.4"), ("name", JVal.str "a")] ++
          [JVal.str "false", JVal.str msg]) ∧
    (jvalues (processRow
        { id := 3, ipColumnName := "ip", includeGeolocation := true,
          includeDomain := false, includeCompany := false,
          includeNetwork := true }
        (fun _ => Except.error "timeout") (fun _ => none)
        [("ip", JVal.str "1.2.3.4"), ("name", JVal.str "a")]
      ).enrichedRow).length <
      (outputHeaders
        { id := 3, ipColumnName := "ip", includeGeolocation := true,
          includeDomain := false, includeCompany := false,
          includeNetwork := true } ["ip", "name"]).length :=
  failed_row_line_misaligned
    { id := 3, ipColumnName := "ip", includeGeolocation := true,
      includeDomain := false, includeCompany := false,
      includeNetwork := true }
    (fun _ => Except.error "timeout") (fun _ => none)
    [("ip", JVal.str "1.2.3.4"), ("name", JVal.str "a")]
    ["ip", "name"] (by decide) (by decide) (by decide) (by decide)
    (by decide) (by decide)

/-! ## Lemmas about the pipeline loop -/

theorem saveBatch_js_fields (jobId : Nat) (rows : List JObj)
    (startIndex : Nat) (eds : List JObj) (js : JobState) (st : Store) :
    ((saveBatchToDatabase jobId rows startIndex eds js st).1).status =
      js.status ∧
    ((saveBatchToDatabase jobId rows startIndex eds js st).1
      ).processedIPs = js.processedIPs ∧
    ((saveBatchToDatabase jobId rows startIndex eds js st).2).sched =
      st.sched := by
  unfold saveBatchToDatabase
  split <;> exact ⟨rfl, rfl, rfl⟩

theorem stepRow_basic (job : Job) (geo : String → Except String IPInfo)
    (dnsLookup : String → Option String) (ls : LoopState) (row : JObj) :
    (stepRow job geo dnsLookup ls row).outputLines = ls.outputLines ++
      [jvalues (processRow job geo dnsLookup row).enrichedRow] ∧
    (stepRow job geo dnsLookup ls row).processed = ls.processed + 1 ∧
    (stepRow job geo dnsLookup ls row).js.status = ls.js.status ∧
    (stepRow job geo dnsLookup ls row).successful = ls.successful +
      (if (processRow job geo dnsLookup row).success then 1 else 0) ∧
    (stepRow job geo dnsLookup ls row).failed = ls.failed +
      (if (processRow job geo dnsLookup row).success then 0 else 1) := by
  simp only [stepRow]
  split
  · refine ⟨rfl, rfl, ?_, rfl, rfl⟩
    exact (saveBatch_js_fields _ _ _ _ _ _).1
  · exact ⟨rfl, rfl, rfl, rfl, rfl⟩

theorem processRows_basic (job : Job)
    (geo : String → Except String IPInfo)
    (dnsLookup : String → Option String) :
    ∀ (rows : List JObj) (ls : LoopState),
    (processRows job geo dnsLookup ls rows).outputLines =
      ls.outputLines ++ rows.map
        (fun r => jvalues (processRow job geo dnsLookup r).enrichedRow) ∧
    (processRows job geo dnsLookup ls rows).processed =
      ls.processed + rows.length ∧
    (processRows job geo dnsLookup ls rows).js.status = ls.js.status ∧
    (processRows job geo dnsLookup ls rows).successful = ls.successful +
      rows.countP (fun r => (processRow job geo dnsLookup r).success) ∧
    (processRows job geo dnsLookup ls rows).failed = ls.failed +
      rows.countP (fun r => !(processRow job geo dnsLookup r).success)
  | [], ls => by
    simp [processRows]
  | row :: rest, ls => by
    have hs := stepRow_basic job geo dnsLookup ls row
    have ih := processRows_basic job geo dnsLookup rest
      (stepRow job geo dnsLookup ls row)
    have hfold : processRows job geo dnsLookup ls (row :: rest) =
        processRows job geo dnsLookup
          (stepRow job geo dnsLookup ls row) rest := rfl
    rw [hfold]
    refine ⟨?_, ?_, ?_, ?_, ?_⟩
    · rw [ih.1, hs.1]
      simp
    · rw [ih.2.1, hs.2.1]
      simp [Nat.add_assoc, Nat.add_comm 1 rest.length]
    · rw [ih.2.2.1, hs.2.2.1]
    · rw [ih.2.2.2.1, hs.2.2.2.1, List.countP_cons]
      cases h : (processRow job geo dnsLookup row).success <;>
        simp [h] <;> omega
    · rw [ih.2.2.2.2, hs.2.2.2.2, List.countP_cons]
      cases h : (processRow job geo dnsLookup row).success <;>
        simp [h] <;> omega

theorem find?_jset_map_self (k : String) (v : JVal) :
    ∀ o : JObj, (List.find? (fun p => p.1 == k) o).isSome →
    List.find? (fun p => p.1 == k)
      (List.map (fun p => if p.1 == k then (k, v) else p) o) =
      some (k, v)
  | [], h => by simp at h
  | p :: o, h => by
    cases hp : (p.1 == k) with
    | true =>
      simp only [List.map_cons, hp, if_true]
      rw [List.find?_cons_of_pos]
      simp
    | false =>
      have h2 : (List.find? (fun p => p.1 == k) o).isSome := by
        rw [List.find?_cons_of_neg] at h
        · exact h
        · simp [hp]
      simp only [List.map_cons, hp, Bool.false_eq_true, if_false]
      rw [List.find?_cons_of_neg]
      · exact find?_jset_map_self k v o h2
      · simp [hp]

theorem jget_jset_self (o : JObj) (k : String) (v : JVal) :
    jget (jset o k v) k = some v := by
  unfold jset
  by_cases h : (List.find? (fun p => p.1 == k) o).isSome
  · rw [if_pos h]
    unfold jget
    rw [find?_jset_map_self k v o h]
    rfl
  · rw [if_neg h]
    unfold jget
    rw [List.find?_append]
    have hnone : List.find? (fun p => p.1 == k) o = none := by
      cases hf : List.find? (fun p => p.1 == k) o with
      | none => rfl
      | some p => rw [hf] at h; simp at h
    rw [hnone]
    simp

theorem find?_jset_map_ne (k k2 : String) (v : JVal) (hne : k2 ≠ k) :
    ∀ o : JObj,
    List.find? (fun p => p.1 == k2)
      (List.map (fun p => if p.1 == k then (k, v) else p) o) =
      List.find? (fun p => p.1 == k2) o
  | [] => rfl
  | p :: o => by
    cases hp : (p.1 == k) with
    | true =>
      have hp2 : (p.1 == k2) = false := by
        have hpk : p.1 = k := by simpa using hp
        rw [hpk]
        simp only [beq_eq_false_iff_ne]
        exact fun h => hne h.symm
      simp only [List.map_cons, hp, if_true]
      rw [List.find?_cons_of_neg, List.find?_cons_of_neg]
      · exact find?_jset_map_ne k k2 v hne o
      · simp [hp2]
      · simp only [beq_iff_eq]
        exact fun h => hne h.symm
    | false =>
      simp only [List.map_cons, hp, Bool.false_eq_true, if_false]
      cases hp2 : (p.1 == k2) with
      | true =>
        simp only [List.find?_cons, hp2, cond_true]
      | false =>
        rw [List.find?_cons_of_neg, List.find?_cons_of_neg]
        · exact find?_jset_map_ne k k2 v hne o
        · simp [hp2]
        · simp [hp2]

theorem jget_jset_ne (o : JObj) (k k2 : String) (v : JVal)
    (hne : k2 ≠ k) : jget (jset o k v) k2 = jget o k2 := by
  unfold jset
  by_cases h : (List.find? (fun p => p.1 == k) o).isSome
  · rw [if_pos h]
    unfold jget
    rw [find?_jset_map_ne k k2 v hne o]
  · rw [if_neg h]
    unfold jget
    rw [List.find?_append]
    have : List.find? (fun p => p.1 == k2) [(k, v)] = none := by
      simp only [List.find?_singleton]
      rw [if_neg]
      simp only [beq_iff_eq]
      exact fun h => hne h.symm
    rw [this]
    simp

/-- Every failed row carries its error in the outcome's `error` field
and the `enrichment_success`/`enrichment_error` markers in its output
row. -/
theorem failed_row_markers (job : Job)
    (geo : String → Except String IPInfo)
    (dnsLookup : String → Option String) (row : JObj)
    (hfail : (processRow job geo dnsLookup row).success = false) :
    ∃ msg, jget (processRow job geo dnsLookup row).enrichmentData
        "error" = some (JVal.str msg) ∧
      jget (processRow job geo dnsLookup row).enrichedRow
        "enrichment_success" = some (JVal.str "false") ∧
      jget (processRow job geo dnsLookup row).enrichedRow
        "enrichment_error" = some (JVal.str msg) := by
  obtain ⟨msg, g, d, hshape⟩ :=
    processRow_fail_shape job geo dnsLookup row hfail
  refine ⟨msg, ?_, ?_, ?_⟩
  · rw [hshape]
    rfl
  · rw [hshape]
    show jget (jset (jset row "enrichment_success" (JVal.str "false"))
      "enrichment_error" (JVal.str msg)) "enrichment_success" = _
    rw [jget_jset_ne _ _ _ _ (by decide), jget_jset_self]
  · rw [hshape]
    show jget (jset (jset row "enrichment_success" (JVal.str "false"))
      "enrichment_error" (JVal.str msg)) "enrichment_error" = _
    rw [jget_jset_self]

theorem afterFinalFlush_carries (job : Job) (headers : List String)
    (rows : List JObj) (geo : String → Except String IPInfo)
    (dnsLookup : String → Option String) (js0 : JobState) (st0 : Store) :
    (afterFinalFlush job headers rows geo dnsLookup js0 st0
      ).outputLines =
      (processRows job geo dnsLookup
        (initialLoopState headers rows js0 st0) rows).outputLines ∧
    (afterFinalFlush job headers rows geo dnsLookup js0 st0).processed =
      (processRows job geo dnsLookup
        (initialLoopState headers rows js0 st0) rows).processed ∧
    (afterFinalFlush job headers rows geo dnsLookup js0 st0).successful =
      (processRows job geo dnsLookup
        (initialLoopState headers rows js0 st0) rows).successful ∧
    (afterFinalFlush job headers rows geo dnsLookup js0 st0).failed =
      (processRows job geo dnsLookup
        (initialLoopState headers rows js0 st0) rows).failed := by
  simp only [afterFinalFlush]
  split <;> exact ⟨rfl, rfl, rfl, rfl⟩

/-- C5: row-level failures cause no job-state transition during the
loop (status stays `processing`; the terminal update is reached
regardless), the output keeps one line per input row in order (failed
rows included), the failures are counted in `failedIPs`, and every
failed row's error is recorded in the outcome's `error` field and the
line's `enrichment_*` markers — `processRow` is total, so row errors
never propagate. -/
theorem row_failures_do_not_abort (job : Job) (headers : List String)
    (rows : List JObj) (geo : String → Except String IPInfo)
    (dnsLookup : String → Option String) (js0 : JobState) (st0 : Store) :
    (processRows job geo dnsLookup
      (initialLoopState headers rows js0 st0) rows).js.status =
      "processing" ∧
    (enrichIPAddresses job headers rows geo dnsLookup js0 st0
      ).outputLines = rows.map
        (fun r => jvalues (processRow job geo dnsLookup r).enrichedRow) ∧
    (enrichIPAddresses job headers rows geo dnsLookup js0 st0
      ).js.processedIPs = rows.length ∧
    (enrichIPAddresses job headers rows geo dnsLookup js0 st0
      ).js.failedIPs = rows.countP
        (fun r => !(processRow job geo dnsLookup r).success) ∧
    (enrichIPAddresses job headers rows geo dnsLookup js0 st0
      ).js.successfulIPs = rows.countP
        (fun r => (processRow job geo dnsLookup r).success) ∧
    (∀ row, (processRow job geo dnsLookup row).success = false →
      ∃ msg, jget (processRow job geo dnsLookup row).enrichmentData
          "error" = some (JVal.str msg) ∧
        jget (processRow job geo dnsLookup row).enrichedRow
          "enrichment_success" = some (JVal.str "false") ∧
        jget (processRow job geo dnsLookup row).enrichedRow
          "enrichment_error" = some (JVal.str msg)) := by
  have hb := processRows_basic job geo dnsLookup rows
    (initialLoopState headers rows js0 st0)
  have hc := afterFinalFlush_carries job headers rows geo dnsLookup
    js0 st0
  refine ⟨?_, ?_, ?_, ?_, ?_, fun row hf =>
    failed_row_markers job geo dnsLookup row hf⟩
  · rw [hb.2.2.1]
    rfl
  · show (afterFinalFlush job headers rows geo dnsLookup js0 st0
      ).outputLines = _
    rw [hc.1, hb.1]
    rfl
  · show (afterFinalFlush job headers rows geo dnsLookup js0 st0
      ).processed = _
    rw [hc.2.1, hb.2.1]
    simp [initialLoopState]
  · show (afterFinalFlush job headers rows geo dnsLookup js0 st0
      ).failed = _
    rw [hc.2.2.2, hb.2.2.2.2]
    simp [initialLoopState]
  · show (afterFinalFlush job headers rows geo dnsLookup js0 st0
      ).successful = _
    rw [hc.2.2.1, hb.2.2.2.1]
    simp [initialLoopState]

/-! ## Concrete fixtures used by witnesses and counterexamples -/

/-- A network-flag-only job reading column `ip`. -/
def witJob : Job :=
  { id := 9, ipColumnName := "ip", includeGeolocation := false,
    includeDomain := false, includeCompany := false,
    includeNetwork := true }

/-- A geolocation double that always fails. -/
def witGeo : String → Except String IPInfo :=
  fun _ => Except.error "lookup failed"

/-- A reverse-DNS double with no PTR records. -/
def witDns : String → Option String := fun _ => none

/-- A row whose IP cell is not a valid address. -/
def invalidRow : JObj := [("ip", JVal.str "x")]

/-- 101 invalid rows: enough for one full batch of 100 plus a final
partial batch of one. -/
def rows101 : List JObj := List.replicate 101 invalidRow

/-- A batch-write schedule on which only the first flush fails. -/
def schedFailFirst : Nat → Bool := fun k => !(k == 0)

/-- Witness for C5 on a one-row run whose only row fails. -/
theorem row_failures_do_not_abort_witness :
    (processRows witJob witGeo witDns
      (initialLoopState ["ip"] [invalidRow] initialJobState
        (emptyStore (fun _ => true))) [invalidRow]).js.status =
      "processing" ∧
    (enrichIPAddresses witJob ["ip"] [invalidRow] witGeo witDns
      initialJobState (emptyStore (fun _ => true))).js.failedIPs =
      List.countP (fun r => !(processRow witJob witGeo witDns r).success)
        [invalidRow] :=
  ⟨(row_failures_do_not_abort witJob ["ip"] [invalidRow] witGeo witDns
      initialJobState (emptyStore (fun _ => true))).1,
   (row_failures_do_not_abort witJob ["ip"] [invalidRow] witGeo witDns
      initialJobState (emptyStore (fun _ => true))).2.2.2.1⟩

/-! ## C9: completion semantics -/

theorem stepRow_allfail (job : Job) (geo : String → Except String IPInfo)
    (dnsLookup : String → Option String) (ls : LoopState) (row : JObj)
    (h : ∀ k, ls.st.sched k = false) :
    (stepRow job geo dnsLookup ls row).st.persisted =
      ls.st.persisted ∧
    (stepRow job geo dnsLookup ls row).st.sched = ls.st.sched := by
  simp only [stepRow]
  split
  · constructor
    · show ((saveBatchToDatabase _ _ _ _ _ ls.st).2).persisted = _
      simp only [saveBatchToDatabase, h, Bool.false_eq_true, if_false]
    · show ((saveBatchToDatabase _ _ _ _ _ ls.st).2).sched = _
      simp only [saveBatchToDatabase, h, Bool.false_eq_true, if_false]
  · exact ⟨rfl, rfl⟩

theorem processRows_allfail (job : Job)
    (geo : String → Except String IPInfo)
    (dnsLookup : String → Option String) :
    ∀ (rows : List JObj) (ls : LoopState),
    (∀ k, ls.st.sched k = false) →
    (processRows job geo dnsLookup ls rows).st.persisted =
      ls.st.persisted ∧
    (processRows job geo dnsLookup ls rows).st.sched = ls.st.sched
  | [], _, _ => ⟨rfl, rfl⟩
  | row :: rest, ls, h => by
    have hs := stepRow_allfail job geo dnsLookup ls row h
    have h2 : ∀ k,
        (stepRow job geo dnsLookup ls row).st.sched k = false := by
      rw [hs.2]
      exact h
    have ih := processRows_allfail job geo dnsLookup rest
      (stepRow job geo dnsLookup ls row) h2
    have hfold : processRows job geo dnsLookup ls (row :: rest) =
        processRows job geo dnsLookup
          (stepRow job geo dnsLookup ls row) rest := rfl
    rw [hfold]
    exact ⟨by rw [ih.1, hs.1], by rw [ih.2, hs.2]⟩

/-- C9: the end-of-stream path always marks the job `completed`, with
`lastCheckpoint` set to the number of rows read and
`partialSaveAvailable = true` — even on a schedule where every batch
write failed, in which case nothing at all was persisted (batch-save
errors are swallowed), so the checkpoint can exceed the number of
persisted records. -/
theorem completion_marks_completed (job : Job) (headers : List String)
    (rows : List JObj) (geo : String → Except String IPInfo)
    (dnsLookup : String → Option String) (js0 : JobState) (st0 : Store) :
    (enrichIPAddresses job headers rows geo dnsLookup js0 st0
      ).js.status = "completed" ∧
    (enrichIPAddresses job headers rows geo dnsLookup js0 st0
      ).js.lastCheckpoint = rows.length ∧
    (enrichIPAddresses job headers rows geo dnsLookup js0 st0
      ).js.partialSaveAvailable = true ∧
    (enrichIPAddresses job headers rows geo dnsLookup js0 st0
      ).js.completedAt = true ∧
    (∀ sched : Nat → Bool, (∀ k, sched k = false) →
      (enrichIPAddresses job headers rows geo dnsLookup js0
        (emptyStore sched)).st.persisted = []) := by
  refine ⟨rfl, rfl, rfl, rfl, fun sched hsched => ?_⟩
  have hloop := processRows_allfail job geo dnsLookup rows
    (initialLoopState headers rows js0 (emptyStore sched)) hsched
  show (afterFinalFlush job headers rows geo dnsLookup js0
    (emptyStore sched)).st.persisted = []
  simp only [afterFinalFlush]
  split
  · show ((saveBatchToDatabase _ _ _ _ _ _).2).persisted = []
    have hsched2 : ∀ k, (processRows job geo dnsLookup
        (initialLoopState headers rows js0 (emptyStore sched))
        rows).st.sched k = false := by
      rw [hloop.2]
      exact hsched
    simp only [saveBatchToDatabase, hsched2, Bool.false_eq_true,
      if_false]
    exact hloop.1
  · exact hloop.1

/-- Witness for C9 on a one-row run over an always-failing store:
completed, checkpoint 1, nothing persisted. -/
theorem completion_marks_completed_witness :
    (enrichIPAddresses witJob ["ip"] [invalidRow] witGeo witDns
      initialJobState (emptyStore (fun _ => false))).js.status =
      "completed" ∧
    (enrichIPAddresses witJob ["ip"] [invalidRow] witGeo witDns
      initialJobState (emptyStore (fun _ => false))
      ).js.lastCheckpoint = 1 ∧
    (enrichIPAddresses witJob ["ip"] [invalidRow] witGeo witDns
      initialJobState (emptyStore (fun _ => false))).st.persisted =
      [] :=
  ⟨(completion_marks_completed witJob ["ip"] [invalidRow] witGeo witDns
      initialJobState (emptyStore (fun _ => false))).1,
   (completion_marks_completed witJob ["ip"] [invalidRow] witGeo witDns
      initialJobState (emptyStore (fun _ => false))).2.1,
   (completion_marks_completed witJob ["ip"] [invalidRow] witGeo witDns
      initialJobState (emptyStore (fun _ => false))).2.2.2.2
     (fun _ => false) (fun _ => rfl)⟩

/-! ## C1: checkpoint/persistence agreement -/

theorem mkBatchData_map_rowIndex (jobId : Nat) :
    ∀ (rows eds : List JObj) (si idStart : Nat),
    (mkBatchData jobId si idStart rows eds).map (fun r => r.rowIndex) =
      List.range' si rows.length
  | [], _, _, _ => rfl
  | row :: rest, eds, si, idStart => by
    simp only [mkBatchData, List.map_cons]
    rw [mkBatchData_map_rowIndex jobId rest eds.tail (si + 1)
      (idStart + 1)]
    rfl

theorem mkBatchData_jobId (jobId : Nat) :
    ∀ (rows eds : List JObj) (si idStart : Nat) (r : ResultRecord),
    r ∈ mkBatchData jobId si idStart rows eds → r.jobId = jobId
  | [], _, _, _, r, h => by simp [mkBatchData] at h
  | row :: rest, eds, si, idStart, r, h => by
    simp only [mkBatchData, List.mem_cons] at h
    rcases h with rfl | h
    · rfl
    · exact mkBatchData_jobId jobId rest eds.tail (si + 1)
        (idStart + 1) r h

theorem range_append_range' (a n : Nat) :
    List.range a ++ List.range' a n = List.range (a + n) := by
  rw [List.range_eq_range', List.range_eq_range']
  have h := List.range'_append 0 a n 1
  simpa [Nat.add_comm] using h

/-- One loop step preserves the all-flushes-succeed invariant: the
persisted row indexes are exactly `0, …, batchStartIndex - 1`, they all
belong to this job, `processed` counts the persisted prefix plus the
current batch, and the checkpoint sits at `batchStartIndex`. -/
theorem stepRow_allok_inv (job : Job)
    (geo : String → Except String IPInfo)
    (dnsLookup : String → Option String) (ls : LoopState) (row : JObj)
    (hsched : ∀ k, ls.st.sched k = true)
    (hmap : ls.st.persisted.map (fun r => r.rowIndex) =
      List.range ls.batchStartIndex)
    (hjob : ∀ r ∈ ls.st.persisted, r.jobId = job.id)
    (hproc : ls.processed = ls.batchStartIndex + ls.currentBatch.length)
    (hcp : ls.js.lastCheckpoint = ls.batchStartIndex) :
    (∀ k, (stepRow job geo dnsLookup ls row).st.sched k = true) ∧
    (stepRow job geo dnsLookup ls row).st.persisted.map
      (fun r => r.rowIndex) =
      List.range (stepRow job geo dnsLookup ls row).batchStartIndex ∧
    (∀ r ∈ (stepRow job geo dnsLookup ls row).st.persisted,
      r.jobId = job.id) ∧
    (stepRow job geo dnsLookup ls row).processed =
      (stepRow job geo dnsLookup ls row).batchStartIndex +
        (stepRow job geo dnsLookup ls row).currentBatch.length ∧
    (stepRow job geo dnsLookup ls row).js.lastCheckpoint =
      (stepRow job geo dnsLookup ls row).batchStartIndex := by
  simp only [stepRow]
  split
  · refine ⟨?_, ?_, ?_, ?_, ?_⟩
    · intro k
      show ((saveBatchToDatabase _ _ _ _ _ ls.st).2).sched k = true
      simp only [saveBatchToDatabase, hsched, eq_self_iff_true, if_true]
    · show ((saveBatchToDatabase _ _ _ _ _ ls.st).2).persisted.map
        (fun r => r.rowIndex) = _
      simp only [saveBatchToDatabase, hsched, eq_self_iff_true, if_true]
      rw [List.map_append, hmap, mkBatchData_map_rowIndex,
        range_append_range']
    · intro r hr
      revert hr
      show r ∈ ((saveBatchToDatabase _ _ _ _ _ ls.st).2).persisted → _
      simp only [saveBatchToDatabase, hsched, eq_self_iff_true, if_true]
      intro hr
      rw [List.mem_append] at hr
      rcases hr with hr | hr
      · exact hjob r hr
      · exact mkBatchData_jobId job.id _ _ _ _ r hr
    · show ls.processed + 1 = ls.batchStartIndex +
        (ls.currentBatch ++ [row]).length + ([] : List JObj).length
      simp only [List.length_append, List.length_cons, List.length_nil]
      omega
    · show ((saveBatchToDatabase _ _ _ _ _ ls.st).1).lastCheckpoint = _
      simp only [saveBatchToDatabase, hsched, eq_self_iff_true, if_true]
  · refine ⟨hsched, hmap, hjob, ?_, hcp⟩
    simp only [List.length_append, List.length_cons, List.length_nil]
    omega

theorem processRows_allok_inv (job : Job)
    (geo : String → Except String IPInfo)
    (dnsLookup : String → Option String) :
    ∀ (rows : List JObj) (ls : LoopState),
    (∀ k, ls.st.sched k = true) →
    ls.st.persisted.map (fun r => r.rowIndex) =
      List.range ls.batchStartIndex →
    (∀ r ∈ ls.st.persisted, r.jobId = job.id) →
    ls.processed = ls.batchStartIndex + ls.currentBatch.length →
    ls.js.lastCheckpoint = ls.batchStartIndex →
    (∀ k, (processRows job geo dnsLookup ls rows).st.sched k = true) ∧
    (processRows job geo dnsLookup ls rows).st.persisted.map
      (fun r => r.rowIndex) =
      List.range (processRows job geo dnsLookup ls rows
        ).batchStartIndex ∧
    (∀ r ∈ (processRows job geo dnsLookup ls rows).st.persisted,
      r.jobId = job.id) ∧
    (processRows job geo dnsLookup ls rows).processed =
      (processRows job geo dnsLookup ls rows).batchStartIndex +
        (processRows job geo dnsLookup ls rows).currentBatch.length ∧
    (processRows job geo dnsLookup ls rows).js.lastCheckpoint =
      (processRows job geo dnsLookup ls rows).batchStartIndex
  | [], ls, h1, h2, h3, h4, h5 => ⟨h1, h2, h3, h4, h5⟩
  | row :: rest, ls, h1, h2, h3, h4, h5 => by
    have hstep := stepRow_allok_inv job geo dnsLookup ls row h1 h2 h3
      h4 h5
    have hfold : processRows job geo dnsLookup ls (row :: rest) =
        processRows job geo dnsLookup
          (stepRow job geo dnsLookup ls row) rest := rfl
    rw [hfold]
    exact processRows_allok_inv job geo dnsLookup rest
      (stepRow job geo dnsLookup ls row) hstep.1 hstep.2.1 hstep.2.2.1
      hstep.2.2.2.1 hstep.2.2.2.2

/-- C1 (amended): after every successful flush the checkpoint equals the
index following the last flushed row; and on a run in which every flush
succeeds, every row index below the checkpoint — which then equals the
number of processed rows — has a persisted `ResultRecord` of this job. -/
theorem checkpoint_resumability (job : Job) (headers : List String)
    (rows : List JObj) (geo : String → Except String IPInfo)
    (dnsLookup : String → Option String) (sched : Nat → Bool)
    (hsched : ∀ k, sched k = true) :
    (∀ (jobId : Nat) (batch eds : List JObj) (si : Nat)
      (js : JobState) (st : Store), st.sched st.flushCount = true →
      ((saveBatchToDatabase jobId batch si eds js st).1
        ).lastCheckpoint = si + batch.length) ∧
    (afterFinalFlush job headers rows geo dnsLookup initialJobState
      (emptyStore sched)).js.lastCheckpoint = rows.length ∧
    (∀ i < rows.length, ∃ r ∈ (afterFinalFlush job headers rows geo
        dnsLookup initialJobState (emptyStore sched)).st.persisted,
      r.rowIndex = i ∧ r.jobId = job.id) := by
  have hinv := processRows_allok_inv job geo dnsLookup rows
    (initialLoopState headers rows initialJobState (emptyStore sched))
    hsched (by simp [initialLoopState, emptyStore, initialJobState])
    (by simp [initialLoopState, emptyStore])
    (by simp [initialLoopState]) (by simp [initialLoopState,
      initialJobState])
  have hproc : (processRows job geo dnsLookup
      (initialLoopState headers rows initialJobState
        (emptyStore sched)) rows).processed = rows.length := by
    have hb := processRows_basic job geo dnsLookup rows
      (initialLoopState headers rows initialJobState
        (emptyStore sched))
    rw [hb.2.1]
    simp [initialLoopState]
  have hsave : ∀ (jobId : Nat) (batch eds : List JObj) (si : Nat)
      (js : JobState) (st : Store), st.sched st.flushCount = true →
      ((saveBatchToDatabase jobId batch si eds js st).1
        ).lastCheckpoint = si + batch.length := by
    intro jobId batch eds si js st hok
    simp only [saveBatchToDatabase, hok, eq_self_iff_true, if_true]
  -- the final-flush state: persisted indexes cover `rows.length`
  have hfin : (afterFinalFlush job headers rows geo dnsLookup
      initialJobState (emptyStore sched)).st.persisted.map
        (fun r => r.rowIndex) = List.range rows.length ∧
      (∀ r ∈ (afterFinalFlush job headers rows geo dnsLookup
        initialJobState (emptyStore sched)).st.persisted,
        r.jobId = job.id) ∧
      (afterFinalFlush job headers rows geo dnsLookup initialJobState
        (emptyStore sched)).js.lastCheckpoint = rows.length := by
    simp only [afterFinalFlush]
    split
    case isTrue hne =>
      have hok : (processRows job geo dnsLookup
          (initialLoopState headers rows initialJobState
            (emptyStore sched)) rows).st.sched
          (processRows job geo dnsLookup
            (initialLoopState headers rows initialJobState
              (emptyStore sched)) rows).st.flushCount = true :=
        hinv.1 _
      refine ⟨?_, ?_, ?_⟩
      · show ((saveBatchToDatabase _ _ _ _ _ _).2).persisted.map
          (fun r => r.rowIndex) = _
        simp only [saveBatchToDatabase, hok, eq_self_iff_true, if_true]
        rw [List.map_append, hinv.2.1, mkBatchData_map_rowIndex,
          range_append_range']
        rw [← hinv.2.2.2.1, hproc]
      · intro r hr
        revert hr
        show r ∈ ((saveBatchToDatabase _ _ _ _ _ _).2).persisted → _
        simp only [saveBatchToDatabase, hok, eq_self_iff_true, if_true]
        intro hr
        rw [List.mem_append] at hr
        rcases hr with hr | hr
        · exact hinv.2.2.1 r hr
        · exact mkBatchData_jobId job.id _ _ _ _ r hr
      · show ((saveBatchToDatabase _ _ _ _ _ _).1).lastCheckpoint = _
        simp only [saveBatchToDatabase, hok, eq_self_iff_true, if_true]
        rw [← hinv.2.2.2.1, hproc]
    case isFalse hempty =>
      have hzero : (processRows job geo dnsLookup
          (initialLoopState headers rows initialJobState
            (emptyStore sched)) rows).currentBatch.length = 0 := by
        omega
      refine ⟨?_, hinv.2.2.1, ?_⟩
      · rw [hinv.2.1]
        congr 1
        omega
      · rw [hinv.2.2.2.2]
        omega
  refine ⟨hsave, hfin.2.2, fun i hi => ?_⟩
  have hmem : i ∈ (afterFinalFlush job headers rows geo dnsLookup
      initialJobState (emptyStore sched)).st.persisted.map
        (fun r => r.rowIndex) := by
    rw [hfin.1]
    exact List.mem_range.mpr hi
  rw [List.mem_map] at hmem
  obtain ⟨r, hr, hri⟩ := hmem
  exact ⟨r, hr, hri, hfin.2.1 r hr⟩

set_option maxRecDepth 1000000 in
/-- Counterexample to C1 as stated: with 101 rows and a store whose
first batch write fails, the final flush succeeds and sets the
checkpoint to 101 (the index following its last flushed row), yet only
row 100 is persisted — rows 0–99 sit below the checkpoint with no
`ResultRecord`. -/
theorem checkpoint_resumability_counterexample :
    (afterFinalFlush witJob ["ip"] rows101 witGeo witDns
      initialJobState (emptyStore schedFailFirst)).js.lastCheckpoint =
      101 ∧
    (afterFinalFlush witJob ["ip"] rows101 witGeo witDns
      initialJobState (emptyStore schedFailFirst)).st.persisted.map
        (fun r => r.rowIndex) = [100] ∧
    ¬ ∃ r ∈ (afterFinalFlush witJob ["ip"] rows101 witGeo witDns
      initialJobState (emptyStore schedFailFirst)).st.persisted,
      r.rowIndex = 0 :=
  ⟨by decide, by decide, by decide⟩

/-- Witness for the amended C1 on a one-row all-flushes-succeed run. -/
theorem checkpoint_resumability_witness :
    (afterFinalFlush witJob ["ip"] [invalidRow] witGeo witDns
      initialJobState (emptyStore (fun _ => true))).js.lastCheckpoint =
      1 ∧
    ∃ r ∈ (afterFinalFlush witJob ["ip"] [invalidRow] witGeo witDns
      initialJobState (emptyStore (fun _ => true))).st.persisted,
      r.rowIndex = 0 ∧ r.jobId = witJob.id :=
  ⟨(checkpoint_resumability witJob ["ip"] [invalidRow] witGeo witDns
      (fun _ => true) (fun _ => rfl)).2.1,
   (checkpoint_resumability witJob ["ip"] [invalidRow] witGeo witDns
      (fun _ => true) (fun _ => rfl)).2.2 0 (by decide)⟩

/-! ## C2: behaviour of a failed batch flush -/

/-- C2 (amended): when the flush triggered by a full batch hits a failed
batch write, the error is logged and row processing continues with the
job status untouched — but the buffer is cleared, not retained:
`currentBatch` is reset and `batchStartIndex` advances past the failed
rows, so they are never offered to a later flush, and nothing was
persisted for them. -/
theorem flush_failure_drops_batch (job : Job)
    (geo : String → Except String IPInfo)
    (dnsLookup : String → Option String) (ls : LoopState) (row : JObj)
    (hfull : BATCH_SIZE ≤ (ls.currentBatch ++ [row]).length)
    (hfail : ls.st.sched ls.st.flushCount = false) :
    (stepRow job geo dnsLookup ls row).st.persisted =
      ls.st.persisted ∧
    (stepRow job geo dnsLookup ls row).st.log =
      ls.st.log ++ ["Error saving batch to database"] ∧
    (stepRow job geo dnsLookup ls row).currentBatch = [] ∧
    (stepRow job geo dnsLookup ls row).currentBatchEnrichment = [] ∧
    (stepRow job geo dnsLookup ls row).batchStartIndex =
      ls.batchStartIndex + ls.currentBatch.length + 1 ∧
    (stepRow job geo dnsLookup ls row).js.status = ls.js.status ∧
    (stepRow job geo dnsLookup ls row).processed = ls.processed + 1 := by
  simp only [stepRow]
  rw [if_pos hfull]
  refine ⟨?_, ?_, rfl, rfl, ?_, ?_, rfl⟩
  · show ((saveBatchToDatabase _ _ _ _ _ ls.st).2).persisted = _
    simp only [saveBatchToDatabase, hfail, Bool.false_eq_true, if_false]
  · show ((saveBatchToDatabase _ _ _ _ _ ls.st).2).log = _
    simp only [saveBatchToDatabase, hfail, Bool.false_eq_true, if_false]
  · show ls.batchStartIndex + (ls.currentBatch ++ [row]).length = _
    simp only [List.length_append, List.length_cons, List.length_nil]
    omega
  · exact (saveBatch_js_fields _ _ _ _ _ _).1

/-- A loop state holding a 99-row batch over an always-failing store. -/
def batch99State : LoopState :=
  { js := initialJobState, st := emptyStore (fun _ => false),
    processed := 99, successful := 0, failed := 99, filtered := 0,
    currentBatch := List.replicate 99 invalidRow,
    currentBatchEnrichment := List.replicate 99 ([] : JObj),
    batchStartIndex := 0, outputLines := [] }

/-- Witness for the amended C2 at a concrete full batch whose flush
fails. -/
theorem flush_failure_drops_batch_witness :
    (stepRow witJob witGeo witDns batch99State invalidRow
      ).st.persisted = batch99State.st.persisted ∧
    (stepRow witJob witGeo witDns batch99State invalidRow).st.log =
      batch99State.st.log ++ ["Error saving batch to database"] ∧
    (stepRow witJob witGeo witDns batch99State invalidRow
      ).currentBatch = [] ∧
    (stepRow witJob witGeo witDns batch99State invalidRow
      ).currentBatchEnrichment = [] ∧
    (stepRow witJob witGeo witDns batch99State invalidRow
      ).batchStartIndex =
      batch99State.batchStartIndex +
        batch99State.currentBatch.length + 1 ∧
    (stepRow witJob witGeo witDns batch99State invalidRow).js.status =
      batch99State.js.status ∧
    (stepRow witJob witGeo witDns batch99State invalidRow).processed =
      batch99State.processed + 1 :=
  flush_failure_drops_batch witJob witGeo witDns batch99State
    invalidRow (by decide) (by decide)

set_option maxRecDepth 1000000 in
/-- Counterexample to C2 as stated: on the 101-row run whose first
flush fails, the error is logged and the run still completes — but the
failed batch's rows 0–99 are never persisted even though the subsequent
flush succeeded, so the buffer was dropped, not retained and retried. -/
theorem flush_failure_drops_batch_counterexample :
    (enrichIPAddresses witJob ["ip"] rows101 witGeo witDns
      initialJobState (emptyStore schedFailFirst)).st.log =
      ["Error saving batch to database", "Batch saved to database"] ∧
    (enrichIPAddresses witJob ["ip"] rows101 witGeo witDns
      initialJobState (emptyStore schedFailFirst)).st.persisted.map
        (fun r => r.rowIndex) = [100] ∧
    (enrichIPAddresses witJob ["ip"] rows101 witGeo witDns
      initialJobState (emptyStore schedFailFirst)).js.status =
      "completed" ∧
    (enrichIPAddresses witJob ["ip"] rows101 witGeo witDns
      initialJobState (emptyStore schedFailFirst)).js.processedIPs =
      101 :=
  ⟨by decide, by decide, by decide, by decide⟩

/-! ## C8: the recent-results poll -/

theorem pairwise_lt_head (a : ResultRecord) :
    ∀ (tl : List ResultRecord) (k : Nat) (x : ResultRecord),
    List.Pairwise (fun p q => p.rowIndex < q.rowIndex) (a :: tl) →
    tl[k]? = some x → a.rowIndex + k < x.rowIndex
  | [], k, x, _, hx => by simp at hx
  | b :: tl2, 0, x, hp, hx => by
    simp only [List.getElem?_cons_zero, Option.some.injEq] at hx
    rcases hx with rfl
    have hab := (List.pairwise_cons.mp hp).1 b (by simp)
    omega
  | b :: tl2, k + 1, x, hp, hx => by
    simp only [List.getElem?_cons_succ] at hx
    have hp2 := (List.pairwise_cons.mp hp).2
    have hrec := pairwise_lt_head b tl2 k x hp2 hx
    have hab := (List.pairwise_cons.mp hp).1 b (by simp)
    omega

theorem pairwise_lt_getElem (l : List ResultRecord)
    (h : List.Pairwise (fun p q => p.rowIndex < q.rowIndex) l)
    (k : Nat) (x : ResultRecord) (hx : l[k]? = some x) :
    k ≤ x.rowIndex := by
  cases l with
  | nil => simp at hx
  | cons a tl =>
    cases k with
    | zero => exact Nat.zero_le _
    | succ k =>
      simp only [List.getElem?_cons_succ] at hx
      have := pairwise_lt_head a tl k x h hx
      omega

/-- C8: the recent-results response only holds records of the polled
job with `rowIndex ≥ since`, and the returned next poll index is
`since` plus the number of returned records. (Records of a job have
pairwise distinct row indexes — they are keyed by `(jobId, rowIndex)`.)
This covers the sample-mode branch too: fabricated sample records also
carry the polled job id and row indexes `since + i`. -/
theorem recent_results_bounds (persisted : List ResultRecord)
    (jobStatus : String) (jobId since limit : Nat) (sample : Bool)
    (now : Nat) (rlat rlon : String)
    (hdist : (persisted.filter (fun r => r.jobId == jobId)).Pairwise
      (fun p q => p.rowIndex ≠ q.rowIndex)) :
    (∀ r ∈ (recentResults persisted jobStatus jobId since limit sample
        now rlat rlon).results, r.jobId = jobId ∧ since ≤ r.rowIndex) ∧
    (recentResults persisted jobStatus jobId since limit sample now
      rlat rlon).nextIndex = since + (recentResults persisted jobStatus
        jobId since limit sample now rlat rlon).results.length := by
  refine ⟨?_, rfl⟩
  intro r hr
  simp only [recentResults] at hr
  by_cases hbranch : ((getEnrichmentResults persisted jobId since
      limit).length == 0 && sample && (jobStatus == "processing")) = true
  · rw [if_pos hbranch] at hr
    simp only [sampleResults, List.mem_map, List.mem_range] at hr
    obtain ⟨i, _, rfl⟩ := hr
    exact ⟨rfl, Nat.le_add_right since i⟩
  · rw [if_neg hbranch] at hr
    simp only [getEnrichmentResults] at hr
    have hmem0 : r ∈ sortByRowIndex
        (persisted.filter (fun r => r.jobId == jobId)) :=
      List.mem_of_mem_drop (List.mem_of_mem_take hr)
    have hperm : (sortByRowIndex
        (persisted.filter (fun r => r.jobId == jobId))).Perm
        (persisted.filter (fun r => r.jobId == jobId)) :=
      List.perm_insertionSort rowLe _
    have hmemf : r ∈ persisted.filter (fun r => r.jobId == jobId) :=
      (hperm.mem_iff).mp hmem0
    have hjid : r.jobId = jobId := by
      have := (List.mem_filter.mp hmemf).2
      simpa using this
    refine ⟨hjid, ?_⟩
    have hsorted : List.Pairwise rowLe (sortByRowIndex
        (persisted.filter (fun r => r.jobId == jobId))) :=
      List.sorted_insertionSort rowLe _
    have hdist2 : List.Pairwise (fun p q : ResultRecord =>
        p.rowIndex ≠ q.rowIndex) (sortByRowIndex
          (persisted.filter (fun r => r.jobId == jobId))) :=
      (List.Perm.pairwise_iff (fun h => Ne.symm h) hperm).mpr hdist
    have hlt : List.Pairwise (fun p q : ResultRecord =>
        p.rowIndex < q.rowIndex) (sortByRowIndex
          (persisted.filter (fun r => r.jobId == jobId))) :=
      (hsorted.and hdist2).imp (fun h => Nat.lt_of_le_of_ne h.1 h.2)
    rw [List.mem_iff_getElem?] at hr
    obtain ⟨k, hk⟩ := hr
    rw [List.getElem?_take] at hk
    by_cases hkl : k < limit
    · rw [if_pos hkl, List.getElem?_drop] at hk
      have := pairwise_lt_getElem _ hlt (since + k) r hk
      omega
    · rw [if_neg hkl] at hk
      exact absurd hk (by simp)

/-- Concrete persisted records for the C8 witness. -/
def wrecA : ResultRecord :=
  { id := 1, jobId := 1, rowIndex := 0, originalData := [],
    enrichmentData := none, processed := true, success := true,
    error := none }

def wrecB : ResultRecord :=
  { id := 2, jobId := 1, rowIndex := 1, originalData := [],
    enrichmentData := none, processed := true, success := true,
    error := none }

def wrecC : ResultRecord :=
  { id := 3, jobId := 2, rowIndex := 5, originalData := [],
    enrichmentData := none, processed := true, success := true,
    error := none }

/-- Witness for C8 on a concrete store with two jobs. -/
theorem recent_results_bounds_witness :
    (∀ r ∈ (recentResults [wrecA, wrecB, wrecC] "completed" 1 1 50
        false 0 "" "").results, r.jobId = 1 ∧ 1 ≤ r.rowIndex) ∧
    (recentResults [wrecA, wrecB, wrecC] "completed" 1 1 50 false 0 ""
      "").nextIndex = 1 + (recentResults [wrecA, wrecB, wrecC]
        "completed" 1 1 50 false 0 "" "").results.length :=
  recent_results_bounds [wrecA, wrecB, wrecC] "completed" 1 1 50 false
    0 "" "" (by decide)

/-! ## C3: consumer-ISP filtering -/

theorem jget_append (o1 o2 : JObj) (k : String) :
    jget (o1 ++ o2) k = (jget o1 k).or (jget o2 k) := by
  unfold jget
  rw [List.find?_append]
  cases List.find? (fun p => p.1 == k) o1 <;> simp

/-- Reading a zipped CSV row skips a prefix of headers the key does not
occur in (the prefix is fully populated). -/
theorem parseCsvRow_skip (h1 : List String) (v1 : List JVal)
    (h2 : List String) (v2 : List JVal) (k : String)
    (hlen : h1.length = v1.length) (hk : k ∉ h1) :
    jget (parseCsvRow (h1 ++ h2) (v1 ++ v2)) k =
      jget (parseCsvRow h2 v2) k := by
  unfold parseCsvRow
  rw [List.zip_append hlen, jget_append,
    jget_eq_none_of_not_mem, Option.none_or]
  rw [jkeys]
  rw [List.map_fst_zip h1 v1 (Nat.le_of_eq hlen)]
  exact hk

theorem containsSeq_hay_ne_nil (needle hay : List Char)
    (hc : containsSeq needle hay = true) (hn : needle ≠ []) :
    hay ≠ [] := by
  cases hay with
  | nil =>
    simp [containsSeq, List.isEmpty_iff] at hc
    exact absurd hc hn
  | cons c rest => simp

/-- Any truthy input containing a configured fragment makes the
classifier return true. -/
theorem isCommonISP_true_of_match (isp org : Option String)
    (h : (∃ t, isp = some t ∧ t ≠ "" ∧ ispPatternTest t = true) ∨
      (∃ t, org = some t ∧ t ≠ "" ∧ ispPatternTest t = true)) :
    isCommonISP isp org = true := by
  unfold isCommonISP
  rcases h with ⟨t, rfl, hne, ht⟩ | ⟨t, rfl, hne, ht⟩
  · have htr : jsTruthyStr (some t) = true := by
      simp [jsTruthyStr, hne]
    rw [if_neg (by simp [htr]), if_pos (by simp [htr, ht])]
  · have htr : jsTruthyStr (some t) = true := by
      simp [jsTruthyStr, hne]
    rw [if_neg (by simp [htr])]
    by_cases h2 : (jsTruthyStr isp && ispPatternTest (isp.getD "")) =
      true
    · rw [if_pos h2]
    · rw [if_neg h2, if_pos (by simp [htr, ht])]

/-- With the company flag on, the success outcome records the
classifier verdict under `ispFiltered`. -/
theorem edKvs_get_ispFiltered (job : Job) (info : IPInfo)
    (domain : Option String) (isIsp : Bool) (ip : String)
    (hcomp : job.includeCompany = true) :
    jget (edKvsOf job info domain isIsp ip) "ispFiltered" =
      some (JVal.bool isIsp) := by
  cases hG : job.includeGeolocation <;>
    cases hD : job.includeDomain <;>
    simp only [edKvsOf, hG, hD, hcomp, eq_self_iff_true,
      Bool.false_eq_true, if_true, if_false] <;>
    rfl

/-- All output column names the pipeline may append. -/
def enrichmentCols : List String :=
  ["country", "city", "region", "latitude", "longitude", "domain",
   "company", "isp_filtered", "isp", "asn", "enrichment_success",
   "enrichment_error"]

theorem erKeys_nodup (job : Job) (info : IPInfo)
    (domain : Option String) (isIsp : Bool) :
    ((erKvsOf job info domain isIsp).map Prod.fst).Nodup := by
  cases hG : job.includeGeolocation <;>
    cases hD : job.includeDomain <;>
    cases hC : job.includeCompany <;>
    cases hN : job.includeNetwork <;>
    simp [erKvsOf, hG, hD, hC, hN]

theorem erKeys_subset (job : Job) (info : IPInfo)
    (domain : Option String) (isIsp : Bool) :
    ∀ k ∈ (erKvsOf job info domain isIsp).map Prod.fst,
      k ∈ enrichmentCols := by
  cases hG : job.includeGeolocation <;>
    cases hD : job.includeDomain <;>
    cases hC : job.includeCompany <;>
    cases hN : job.includeNetwork <;>
    simp [erKvsOf, enrichmentCols, hG, hD, hC, hN]

/-- With original headers free of the enrichment column names, the
success-path assignments append their cells after the original ones. -/
theorem enriched_line_shape (job : Job) (info : IPInfo)
    (domain : Option String) (isIsp : Bool) (row : JObj)
    (headers : List String)
    (hkeys : jkeys row = headers) (hnd : headers.Nodup)
    (hdisj : ∀ k ∈ enrichmentCols, k ∉ headers) :
    applySets row (erKvsOf job info domain isIsp) =
      row ++ erKvsOf job info domain isIsp := by
  apply applySets_eq_append
  rw [hkeys, List.nodup_append]
  refine ⟨hnd, erKeys_nodup job info domain isIsp, ?_⟩
  intro a ha hmem
  exact hdisj a (erKeys_subset job info domain isIsp a hmem) ha

/-- Parsing a flagged row's line against the output header row puts
`"yes"` under `isp_filtered` (company flag on, classifier verdict
true). -/
theorem parse_enriched_line (job : Job) (headers : List String)
    (row : JObj) (info : IPInfo) (domain : Option String)
    (hcomp : job.includeCompany = true)
    (hkeys : jkeys row = headers)
    (hdisj : ∀ k ∈ enrichmentCols, k ∉ headers) :
    jget (parseCsvRow (outputHeaders job headers)
      (jvalues (row ++ erKvsOf job info domain true)))
      "isp_filtered" = some (JVal.str "yes") := by
  have hlen : headers.length = (jvalues row).length := by
    rw [← hkeys]
    simp [jkeys, jvalues]
  have hnm : "isp_filtered" ∉ headers := hdisj _ (by decide)
  rw [jvalues_append]
  cases hG : job.includeGeolocation <;> cases hD : job.includeDomain <;>
    simp only [outputHeaders, erKvsOf, hG, hD, hcomp, eq_self_iff_true,
      Bool.false_eq_true, if_true, if_false, List.append_assoc,
      List.nil_append, List.append_nil] <;>
    rw [parseCsvRow_skip headers (jvalues row) _ _ _ hlen hnm] <;>
    rfl

theorem commonISP_frag_ne_nil : ∀ f ∈ COMMON_ISPS, f.data ≠ [] := by
  decide

/-- C3 (amended, company flag on): a successfully-enriched row whose
returned `isp` or `org` contains (case-insensitively) a configured
consumer-ISP fragment gets `ispFiltered = true` in its outcome, its
line appears in the full enriched output, its line parses with
`isp_filtered = "yes"` so the download filter drops it, and the
filtered artifact never keeps any parsed row whose `isp_filtered` cell
is `"yes"`. -/
theorem isp_filtered_row_excluded (job : Job) (headers : List String)
    (rows : List JObj) (row : JObj)
    (geo : String → Except String IPInfo)
    (dnsLookup : String → Option String) (js0 : JobState) (st0 : Store)
    (s : String) (info : IPInfo)
    (hcomp : job.includeCompany = true)
    (hip : jget row job.ipColumnName = some (JVal.str s))
    (hvalid : isValidIP s = true)
    (hg : geo s = Except.ok info)
    (hfrag : (∃ t frag, info.isp = some t ∧ frag ∈ COMMON_ISPS ∧
        containsSeq frag.data (t.data.map Char.toLower) = true) ∨
      (∃ t frag, info.org = some t ∧ frag ∈ COMMON_ISPS ∧
        containsSeq frag.data (t.data.map Char.toLower) = true))
    (hkeys : jkeys row = headers) (hnd : headers.Nodup)
    (hdisj : ∀ k ∈ enrichmentCols, k ∉ headers)
    (hrow : row ∈ rows) :
    jget (processRow job geo dnsLookup row).enrichmentData
      "ispFiltered" = some (JVal.bool true) ∧
    jvalues (processRow job geo dnsLookup row).enrichedRow ∈
      (enrichIPAddresses job headers rows geo dnsLookup js0 st0
        ).outputLines ∧
    downloadRowKeep (parseCsvRow (outputHeaders job headers)
      (jvalues (processRow job geo dnsLookup row).enrichedRow)) =
      false ∧
    (∀ lines, parseCsvRow (outputHeaders job headers)
        (jvalues (processRow job geo dnsLookup row).enrichedRow) ∉
      filteredKeptRows (outputHeaders job headers) lines) ∧
    (∀ (lines : List (List JVal)) (p : JObj),
      p ∈ filteredKeptRows (outputHeaders job headers) lines →
      jget p "isp_filtered" ≠ some (JVal.str "yes")) := by
  have hne : s ≠ "" := by
    intro h
    rw [h] at hvalid
    exact absurd hvalid (by decide)
  have hcond : (!(s == "") && isValidIP s) = true := by
    simp [hvalid, hne]
  have hmkmatch : ∀ t frag, frag ∈ COMMON_ISPS →
      containsSeq frag.data (t.data.map Char.toLower) = true →
      t ≠ "" ∧ ispPatternTest t = true := by
    intro t frag hmem hc
    have hfne : frag.data ≠ [] := commonISP_frag_ne_nil frag hmem
    have hhay : t.data.map Char.toLower ≠ [] :=
      containsSeq_hay_ne_nil _ _ hc hfne
    refine ⟨?_, ?_⟩
    · intro h
      rw [h] at hhay
      exact hhay rfl
    · exact List.any_eq_true.mpr ⟨frag, hmem, hc⟩
  have hisp : isCommonISP info.isp info.org = true := by
    apply isCommonISP_true_of_match
    rcases hfrag with ⟨t, frag, ht, hmem, hc⟩ | ⟨t, frag, ht, hmem, hc⟩
    · exact Or.inl ⟨t, ht, (hmkmatch t frag hmem hc).1,
        (hmkmatch t frag hmem hc).2⟩
    · exact Or.inr ⟨t, ht, (hmkmatch t frag hmem hc).1,
        (hmkmatch t frag hmem hc).2⟩
  have hshape := processRow_geo_ok job geo dnsLookup row s info hip
    hcond hg
  have hline : (processRow job geo dnsLookup row).enrichedRow =
      row ++ erKvsOf job info (dnsLookup s)
        (isCommonISP info.isp info.org) := by
    rw [hshape]
    exact enriched_line_shape job info (dnsLookup s) _ row headers
      hkeys hnd hdisj
  have hparse : jget (parseCsvRow (outputHeaders job headers)
      (jvalues (processRow job geo dnsLookup row).enrichedRow))
      "isp_filtered" = some (JVal.str "yes") := by
    rw [hline, hisp]
    exact parse_enriched_line job headers row info (dnsLookup s) hcomp
      hkeys hdisj
  refine ⟨?_, ?_, ?_, ?_, ?_⟩
  · rw [hshape]
    show jget (applySets [] (edKvsOf job info (dnsLookup s)
      (isCommonISP info.isp info.org) s)) "ispFiltered" = _
    rw [edKvs_applySets, edKvs_get_ispFiltered job info (dnsLookup s) _
      s hcomp, hisp]
  · have hout : (enrichIPAddresses job headers rows geo dnsLookup js0
        st0).outputLines = rows.map
        (fun r => jvalues (processRow job geo dnsLookup r).enrichedRow)
        := by
      show (afterFinalFlush job headers rows geo dnsLookup js0 st0
        ).outputLines = _
      rw [(afterFinalFlush_carries job headers rows geo dnsLookup js0
        st0).1, (processRows_basic job geo dnsLookup rows
          (initialLoopState headers rows js0 st0)).1]
      rfl
    rw [hout]
    exact List.mem_map_of_mem _ hrow
  · simp [downloadRowKeep, hparse]
  · intro lines hmem
    have hkeep := (List.mem_filter.mp hmem).2
    rw [downloadRowKeep, hparse] at hkeep
    simp at hkeep
  · intro lines p hp heq
    have hkeep := (List.mem_filter.mp hp).2
    rw [downloadRowKeep, heq] at hkeep
    simp at hkeep

/-- A geolocation payload naming a consumer ISP. -/
def comcastInfo : IPInfo :=
  { country := none, city := none, regionName := none, lat := none,
    lon := none, isp := some "Comcast Cable Communications",
    org := some "Comcast Cable Communications",
    asName := some "AS7922" }

/-- A geolocation double returning the consumer-ISP payload. -/
def comcastGeo : String → Except String IPInfo :=
  fun _ => Except.ok comcastInfo

/-- A row with a valid address. -/
def validRow : JObj := [("ip", JVal.str "1.2.3.4")]

/-- A job with the company flag off (network only). -/
def noCompanyJob : Job :=
  { id := 5, ipColumnName := "ip", includeGeolocation := false,
    includeDomain := false, includeCompany := false,
    includeNetwork := true }

/-- A job with the company flag on. -/
def companyJob : Job :=
  { id := 6, ipColumnName := "ip", includeGeolocation := true,
    includeDomain := false, includeCompany := true,
    includeNetwork := false }

/-- Counterexample to C3 as stated: with `includeCompany = false` (a
legal combination of the four flags) a consumer-ISP row gets no
`ispFiltered` field in its outcome, no `isp_filtered` column in its
line, and the filtered artifact keeps the row instead of excluding
it. -/
theorem isp_filtered_row_excluded_counterexample :
    (processRow noCompanyJob comcastGeo witDns validRow).success =
      true ∧
    (processRow noCompanyJob comcastGeo witDns validRow).ispFlag =
      true ∧
    jget (processRow noCompanyJob comcastGeo witDns validRow
      ).enrichmentData "ispFiltered" = none ∧
    (enrichIPAddresses noCompanyJob ["ip"] [validRow] comcastGeo witDns
      initialJobState (emptyStore (fun _ => true))).outputLines =
      [jvalues (processRow noCompanyJob comcastGeo witDns validRow
        ).enrichedRow] ∧
    filteredKeptRows (outputHeaders noCompanyJob ["ip"])
      [jvalues (processRow noCompanyJob comcastGeo witDns validRow
        ).enrichedRow] =
      [parseCsvRow (outputHeaders noCompanyJob ["ip"])
        (jvalues (processRow noCompanyJob comcastGeo witDns validRow
          ).enrichedRow)] :=
  ⟨by decide, by decide, by decide, by decide, by decide⟩

/-- Witness for the amended C3 at a concrete Comcast row with the
company flag on. -/
theorem isp_filtered_row_excluded_witness :
    jget (processRow companyJob comcastGeo witDns validRow
      ).enrichmentData "ispFiltered" = some (JVal.bool true) ∧
    downloadRowKeep (parseCsvRow (outputHeaders companyJob ["ip"])
      (jvalues (processRow companyJob comcastGeo witDns validRow
        ).enrichedRow)) = false :=
  ⟨(isp_filtered_row_excluded companyJob ["ip"] [validRow] validRow
      comcastGeo witDns initialJobState (emptyStore (fun _ => true))
      "1.2.3.4" comcastInfo (by decide) (by decide) (by decide) rfl
      (Or.inl ⟨"Comcast Cable Communications", "comcast", rfl,
        by decide, by decide⟩)
      (by decide) (by decide) (by decide) (by decide)).1,
   (isp_filtered_row_excluded companyJob ["ip"] [validRow] validRow
      comcastGeo witDns initialJobState (emptyStore (fun _ => true))
      "1.2.3.4" comcastInfo (by decide) (by decide) (by decide) rfl
      (Or.inl ⟨"Comcast Cable Communications", "comcast", rfl,
        by decide, by decide⟩)
      (by decide) (by decide) (by decide) (by decide)).2.2.1⟩
